import Mathlib

/-
Verification development for the SEAAM kernel.

Shallow embedding of the core state and operations of the repository:
the DNA schema and persistence layer (seaa/dna/schema.py, seaa/dna/repository.py),
the circuit breaker, the goal satisfaction check, the event bus (seaa/kernel/bus.py),
the genealogy input validation (seaa/kernel/genealogy.py), the materializer
(seaa/kernel/materializer.py), the generation pipeline (seaa/connectors/llm_gateway.py)
and the orchestrator evolution step (seaa/kernel/genesis.py).

Conventions of the embedding:
- Python dicts become association lists, preserving insertion order.
- JSON documents become the inductive type Json below; the textual layer of
  json.dumps and json.loads is not modelled (it round-trips exactly on the
  values the serializer produces), so a persisted file holds either a Json
  value or an opaque non-JSON blob.
- Timestamps are the ISO strings the code stores; the parsing done by
  datetime.fromisoformat is abstracted by a function parameter, and the
  current wall clock is passed explicitly where the code calls utcnow.
- The SHA-256 digest is abstracted by a function parameter; theorems that
  need the digest to separate two byte strings take that separation as a
  hypothesis, which is exactly what collision resistance provides.
- Dynamic (untyped) Python states that the serializer can never produce,
  for example a failure record whose error_type is an integer, are outside
  the typed model; each such spot is noted in a comment.
-/

namespace SEAA

/-- Model of a JSON document, as produced by json.dumps and json.loads. -/
inductive Json where
  | null : Json
  | bool : Bool → Json
  | num : Int → Json
  | str : String → Json
  | arr : List Json → Json
  | obj : List (String × Json) → Json

mutual

def Json.beq : Json → Json → Bool
  | Json.null, Json.null => true
  | Json.bool a, Json.bool b => a == b
  | Json.num a, Json.num b => a == b
  | Json.str a, Json.str b => a == b
  | Json.arr a, Json.arr b => Json.beqList a b
  | Json.obj a, Json.obj b => Json.beqObj a b
  | _, _ => false

def Json.beqList : List Json → List Json → Bool
  | [], [] => true
  | a :: as, b :: bs => Json.beq a b && Json.beqList as bs
  | _, _ => false

def Json.beqObj : List (String × Json) → List (String × Json) → Bool
  | [], [] => true
  | (k1, v1) :: as, (k2, v2) :: bs => k1 == k2 && Json.beq v1 v2 && Json.beqObj as bs
  | _, _ => false

end

mutual

theorem Json.beq_iff : ∀ a b : Json, Json.beq a b = true ↔ a = b
  | Json.null, Json.null => by simp [Json.beq]
  | Json.null, Json.bool _ => by simp [Json.beq]
  | Json.null, Json.num _ => by simp [Json.beq]
  | Json.null, Json.str _ => by simp [Json.beq]
  | Json.null, Json.arr _ => by simp [Json.beq]
  | Json.null, Json.obj _ => by simp [Json.beq]
  | Json.bool _, Json.null => by simp [Json.beq]
  | Json.bool _, Json.bool _ => by simp [Json.beq]
  | Json.bool _, Json.num _ => by simp [Json.beq]
  | Json.bool _, Json.str _ => by simp [Json.beq]
  | Json.bool _, Json.arr _ => by simp [Json.beq]
  | Json.bool _, Json.obj _ => by simp [Json.beq]
  | Json.num _, Json.null => by simp [Json.beq]
  | Json.num _, Json.bool _ => by simp [Json.beq]
  | Json.num _, Json.num _ => by simp [Json.beq]
  | Json.num _, Json.str _ => by simp [Json.beq]
  | Json.num _, Json.arr _ => by simp [Json.beq]
  | Json.num _, Json.obj _ => by simp [Json.beq]
  | Json.str _, Json.null => by simp [Json.beq]
  | Json.str _, Json.bool _ => by simp [Json.beq]
  | Json.str _, Json.str _ => by simp [Json.beq]
  | Json.str _, Json.num _ => by simp [Json.beq]
  | Json.str _, Json.arr _ => by simp [Json.beq]
  | Json.str _, Json.obj _ => by simp [Json.beq]
  | Json.arr _, Json.null => by simp [Json.beq]
  | Json.arr _, Json.bool _ => by simp [Json.beq]
  | Json.arr _, Json.num _ => by simp [Json.beq]
  | Json.arr _, Json.str _ => by simp [Json.beq]
  | Json.arr a, Json.arr b => by
      simp only [Json.beq, Json.arr.injEq]
      exact Json.beqList_iff a b
  | Json.arr _, Json.obj _ => by simp [Json.beq]
  | Json.obj _, Json.null => by simp [Json.beq]
  | Json.obj _, Json.bool _ => by simp [Json.beq]
  | Json.obj _, Json.num _ => by simp [Json.beq]
  | Json.obj _, Json.str _ => by simp [Json.beq]
  | Json.obj _, Json.arr _ => by simp [Json.beq]
  | Json.obj a, Json.obj b => by
      simp only [Json.beq, Json.obj.injEq]
      exact Json.beqObj_iff a b

theorem Json.beqList_iff : ∀ a b : List Json, Json.beqList a b = true ↔ a = b
  | [], [] => by simp [Json.beqList]
  | [], _ :: _ => by simp [Json.beqList]
  | _ :: _, [] => by simp [Json.beqList]
  | a :: as, b :: bs => by
      simp only [Json.beqList, Bool.and_eq_true, List.cons.injEq]
      exact and_congr (Json.beq_iff a b) (Json.beqList_iff as bs)

theorem Json.beqObj_iff : ∀ a b : List (String × Json), Json.beqObj a b = true ↔ a = b
  | [], [] => by simp [Json.beqObj]
  | [], _ :: _ => by simp [Json.beqObj]
  | _ :: _, [] => by simp [Json.beqObj]
  | (k1, v1) :: as, (k2, v2) :: bs => by
      simp only [Json.beqObj, Bool.and_eq_true, List.cons.injEq, Prod.mk.injEq, beq_iff_eq]
      exact and_congr (and_congr Iff.rfl (Json.beq_iff v1 v2)) (Json.beqObj_iff as bs)

end

instance : DecidableEq Json := fun a b =>
  decidable_of_iff (Json.beq a b = true) (Json.beq_iff a b)

/-- Lookup of a key in a JSON object, modelling Python dict access.
The serializer emits unique keys, so first-match lookup agrees with dicts. -/
def jget : List (String × Json) → String → Option Json
  | [], _ => none
  | (k, v) :: rest, key => if k == key then some v else jget rest key

/-- Models data.get(key, default) for a string-valued field. -/
def jStr (o : List (String × Json)) (key dflt : String) : String :=
  match jget o key with
  | some (Json.str s) => s
  | _ => dflt

/-- Models data.get(key, default) for an integer-valued field. -/
def jInt (o : List (String × Json)) (key : String) (dflt : Int) : Int :=
  match jget o key with
  | some (Json.num n) => n
  | _ => dflt

/-- Models data.get(key, default) for a boolean-valued field. -/
def jBool (o : List (String × Json)) (key : String) (dflt : Bool) : Bool :=
  match jget o key with
  | some (Json.bool b) => b
  | _ => dflt

/-- Models data.get(key) for an optional string field; JSON null maps to none. -/
def jStrOpt (o : List (String × Json)) (key : String) : Option String :=
  match jget o key with
  | some (Json.str s) => some s
  | _ => none

/-- Collects the string elements of a JSON array. -/
def collectStrs : List Json → List String :=
  List.filterMap fun j => match j with
    | Json.str s => some s
    | _ => none

/-- Models data.get(key, empty list) for a list-of-strings field. -/
def jStrList (o : List (String × Json)) (key : String) : List String :=
  match jget o key with
  | some (Json.arr xs) => collectStrs xs
  | _ => []

/-- JSON encoding of an optional string, as json.dumps renders None. -/
def optStr : Option String → Json
  | none => Json.null
  | some s => Json.str s

/-- FailureType enum from seaa/dna/schema.py. The Python member named import
is spelled importK here because import is a Lean keyword. -/
inductive FailureType where
  | importK : FailureType
  | validation : FailureType
  | runtime : FailureType
  | generation : FailureType
  | materialization : FailureType
  deriving DecidableEq

/-- String value of a FailureType member, as the str Enum stores it. -/
def FailureType.value : FailureType → String
  | FailureType.importK => "import"
  | FailureType.validation => "validation"
  | FailureType.runtime => "runtime"
  | FailureType.generation => "generation"
  | FailureType.materialization => "materialization"

/-- Models the try FailureType(s) except ValueError fallback to RUNTIME used
in Failure.from_dict. -/
def FailureType.ofValue (s : String) : FailureType :=
  if s == "import" then FailureType.importK
  else if s == "validation" then FailureType.validation
  else if s == "runtime" then FailureType.runtime
  else if s == "generation" then FailureType.generation
  else if s == "materialization" then FailureType.materialization
  else FailureType.runtime

/-- Failure record from seaa/dna/schema.py. -/
structure Failure where
  module_name : String
  error_type : FailureType
  error_message : String
  timestamp : String
  attempt_count : Int
  context : List (String × Json)
  circuit_open : Bool
  circuit_opened_at : Option String
  deriving DecidableEq

/-- Failure.to_dict from seaa/dna/schema.py. -/
def Failure.toDict (f : Failure) : Json :=
  Json.obj [
    ("module_name", Json.str f.module_name),
    ("error_type", Json.str f.error_type.value),
    ("error_message", Json.str f.error_message),
    ("timestamp", Json.str f.timestamp),
    ("attempt_count", Json.num f.attempt_count),
    ("context", Json.obj f.context),
    ("circuit_open", Json.bool f.circuit_open),
    ("circuit_opened_at", optStr f.circuit_opened_at)]

/-- Split at the first colon-space occurrence, as str.split with that
separator and maxsplit one finds it. -/
def splitFirstColonSpace : List Char → Option (List Char × List Char)
  | [] => none
  | ':' :: ' ' :: rest => some ([], rest)
  | c :: rest => (splitFirstColonSpace rest).map (fun p => (c :: p.1, p.2))

/-- Failure.from_legacy_string from seaa/dna/schema.py: converts the old
format of module colon space error into a structured failure. The parameter
now models datetime.utcnow rendered to an ISO string. -/
def Failure.fromLegacyString (now legacy : String) : Failure :=
  match splitFirstColonSpace legacy.data with
  | some (m, e) =>
    { module_name := String.mk m
      error_type := FailureType.runtime
      error_message := String.mk e
      timestamp := now
      attempt_count := 1
      context := []
      circuit_open := false
      circuit_opened_at := none }
  | none =>
    { module_name := "unknown"
      error_type := FailureType.runtime
      error_message := legacy
      timestamp := now
      attempt_count := 1
      context := []
      circuit_open := false
      circuit_opened_at := none }

/-- Failure.from_dict from seaa/dna/schema.py. A missing module_name key is a
KeyError in Python, modelled as an error result. In the untyped original a
non-string error_type or context value would be stored unchanged; such states
are not representable in the typed model and cannot be produced by to_dict,
so they map to the same defaults as a missing key. -/
def Failure.fromDict (now : String) : Json → Except String Failure
  | Json.obj o =>
    match jget o "module_name" with
    | some (Json.str m) =>
      Except.ok {
        module_name := m
        error_type :=
          match jget o "error_type" with
          | some (Json.str s) => FailureType.ofValue s
          | _ => FailureType.runtime
        error_message := jStr o "error_message" "Unknown error"
        timestamp := jStr o "timestamp" now
        attempt_count := jInt o "attempt_count" 1
        context :=
          match jget o "context" with
          | some (Json.obj c) => c
          | _ => []
        circuit_open := jBool o "circuit_open" false
        circuit_opened_at := jStrOpt o "circuit_opened_at" }
    | _ => Except.error "Failure.from_dict: missing module_name"
  | _ => Except.error "Failure.from_dict: not a mapping"

/-- OrganBlueprint from seaa/dna/schema.py. -/
structure OrganBlueprint where
  name : String
  description : String
  dependencies : List String
  version : Int
  created_at : String
  updated_at : String
  deriving DecidableEq

/-- OrganBlueprint.to_dict from seaa/dna/schema.py. -/
def OrganBlueprint.toDict (bp : OrganBlueprint) : Json :=
  Json.obj [
    ("name", Json.str bp.name),
    ("description", Json.str bp.description),
    ("dependencies", Json.arr (bp.dependencies.map Json.str)),
    ("version", Json.num bp.version),
    ("created_at", Json.str bp.created_at),
    ("updated_at", Json.str bp.updated_at)]

/-- OrganBlueprint.from_dict from seaa/dna/schema.py: accepts a legacy string
description or a mapping; the name always comes from the catalog key. -/
def OrganBlueprint.fromJson (now name : String) : Json → Except String OrganBlueprint
  | Json.str descr =>
    Except.ok {
      name := name
      description := descr
      dependencies := []
      version := 1
      created_at := now
      updated_at := now }
  | Json.obj o =>
    Except.ok {
      name := name
      description := jStr o "description" ""
      dependencies := jStrList o "dependencies"
      version := jInt o "version" 1
      created_at := jStr o "created_at" now
      updated_at := jStr o "updated_at" now }
  | _ => Except.error "OrganBlueprint.from_dict: not a mapping or string"

/-- Goal from seaa/dna/schema.py. -/
structure Goal where
  description : String
  priority : Int
  satisfied : Bool
  created_at : String
  required_organs : List String
  deriving DecidableEq

/-- Goal.to_dict from seaa/dna/schema.py. -/
def Goal.toDict (g : Goal) : Json :=
  Json.obj [
    ("description", Json.str g.description),
    ("priority", Json.num g.priority),
    ("satisfied", Json.bool g.satisfied),
    ("created_at", Json.str g.created_at),
    ("required_organs", Json.arr (g.required_organs.map Json.str))]

/-- Goal.from_dict from seaa/dna/schema.py: accepts a legacy string or a
mapping. -/
def Goal.fromJson (now : String) : Json → Except String Goal
  | Json.str descr =>
    Except.ok {
      description := descr
      priority := 1
      satisfied := false
      created_at := now
      required_organs := [] }
  | Json.obj o =>
    Except.ok {
      description := jStr o "description" ""
      priority := jInt o "priority" 1
      satisfied := jBool o "satisfied" false
      created_at := jStr o "created_at" now
      required_organs := jStrList o "required_organs" }
  | _ => Except.error "Goal.from_dict: not a mapping or string"

/-- DNAMetadata from seaa/dna/schema.py. -/
structure DNAMetadata where
  last_modified : String
  total_evolutions : Int
  total_failures : Int
  last_successful_organ : Option String
  deriving DecidableEq

/-- DNAMetadata.to_dict from seaa/dna/schema.py (dataclasses.asdict). -/
def DNAMetadata.toDict (m : DNAMetadata) : Json :=
  Json.obj [
    ("last_modified", Json.str m.last_modified),
    ("total_evolutions", Json.num m.total_evolutions),
    ("total_failures", Json.num m.total_failures),
    ("last_successful_organ", optStr m.last_successful_organ)]

/-- DNAMetadata.from_dict from seaa/dna/schema.py. -/
def DNAMetadata.fromDict (now : String) (o : List (String × Json)) : DNAMetadata :=
  { last_modified := jStr o "last_modified" now
    total_evolutions := jInt o "total_evolutions" 0
    total_failures := jInt o "total_failures" 0
    last_successful_organ := jStrOpt o "last_successful_organ" }

/-- DNA root aggregate from seaa/dna/schema.py. The blueprint catalog is an
insertion-ordered dict in Python, modelled as an association list. -/
structure DNA where
  system_version : String
  system_name : String
  blueprint : List (String × OrganBlueprint)
  goals : List Goal
  active_modules : List String
  failures : List Failure
  metadata : DNAMetadata
  deriving DecidableEq

/-- DNA.to_dict from seaa/dna/schema.py. -/
def DNA.toDict (d : DNA) : Json :=
  Json.obj [
    ("system_version", Json.str d.system_version),
    ("system_name", Json.str d.system_name),
    ("blueprint", Json.obj (d.blueprint.map (fun p => (p.1, p.2.toDict)))),
    ("goals", Json.arr (d.goals.map Goal.toDict)),
    ("active_modules", Json.arr (d.active_modules.map Json.str)),
    ("failures", Json.arr (d.failures.map Failure.toDict)),
    ("metadata", d.metadata.toDict)]

/-- Parses the entries of the blueprint mapping in order. -/
def parseBlueprintEntries (now : String) :
    List (String × Json) → Except String (List (String × OrganBlueprint))
  | [] => Except.ok []
  | (name, bpData) :: rest => do
    let bp ← OrganBlueprint.fromJson now name bpData
    let tail ← parseBlueprintEntries now rest
    Except.ok ((name, bp) :: tail)

/-- Parses the goals array in order. -/
def parseGoals (now : String) : List Json → Except String (List Goal)
  | [] => Except.ok []
  | g :: rest => do
    let goal ← Goal.fromJson now g
    let tail ← parseGoals now rest
    Except.ok (goal :: tail)

/-- Dispatch used inside DNA.from_dict for one failures entry: a string is a
legacy record, anything else goes through Failure.from_dict. -/
def parseFailureItem (now : String) : Json → Except String Failure
  | Json.str legacy => Except.ok (Failure.fromLegacyString now legacy)
  | j => Failure.fromDict now j

/-- Parses the failures array in order. -/
def parseFailures (now : String) : List Json → Except String (List Failure)
  | [] => Except.ok []
  | f :: rest => do
    let failure ← parseFailureItem now f
    let tail ← parseFailures now rest
    Except.ok (failure :: tail)

/-- DNA.from_dict from seaa/dna/schema.py. Any exception Python would raise
while destructuring, for example iterating a non-list goals field, becomes an
error result; DNARepository.load converts it into a validation error. -/
def DNA.fromDict (now : String) : Json → Except String DNA
  | Json.obj o => do
    let bp ←
      match jget o "blueprint" with
      | none => Except.ok []
      | some (Json.obj bo) => parseBlueprintEntries now bo
      | some _ => Except.error "DNA.from_dict: blueprint is not a mapping"
    let gls ←
      match jget o "goals" with
      | none => Except.ok []
      | some (Json.arr xs) => parseGoals now xs
      | some _ => Except.error "DNA.from_dict: goals is not a list"
    let fls ←
      match jget o "failures" with
      | none => Except.ok []
      | some (Json.arr xs) => parseFailures now xs
      | some _ => Except.error "DNA.from_dict: failures is not a list"
    let md ←
      match jget o "metadata" with
      | none => Except.ok (DNAMetadata.fromDict now [])
      | some (Json.obj mo) => Except.ok (DNAMetadata.fromDict now mo)
      | some _ => Except.error "DNA.from_dict: metadata is not a mapping"
    Except.ok {
      system_version := jStr o "system_version" "1.0.0"
      system_name := jStr o "system_name" "SEAA"
      blueprint := bp
      goals := gls
      active_modules := jStrList o "active_modules"
      failures := fls
      metadata := md }
  | _ => Except.error "DNA.from_dict: not a mapping"

/-- Collecting the string elements of an all-strings array is the identity. -/
theorem collectStrs_map_str : ∀ xs : List String, collectStrs (xs.map Json.str) = xs := by
  intro xs
  induction xs with
  | nil => rfl
  | cons a as ih => simp [collectStrs, List.filterMap_cons] at ih ⊢; exact ih

/-- Parsing the enum value written by to_dict recovers the member. -/
theorem FailureType.ofValue_value (t : FailureType) : FailureType.ofValue t.value = t := by
  cases t <;> rfl

/-- Round trip of a failure record through its dict form. -/
theorem failureRoundtrip (now : String) (f : Failure) :
    Failure.fromDict now f.toDict = Except.ok f := by
  cases f with
  | mk m et msg ts ac ctx co coa =>
    cases et <;> cases coa <;> rfl

/-- Round trip of the failures array. -/
theorem parseFailures_map (now : String) : ∀ fs : List Failure,
    parseFailures now (fs.map Failure.toDict) = Except.ok fs := by
  intro fs
  induction fs with
  | nil => rfl
  | cons f rest ih =>
    have hf : parseFailureItem now f.toDict = Except.ok f := by
      cases f with
      | mk m et msg ts ac ctx co coa => cases et <;> cases coa <;> rfl
    simp only [List.map_cons, parseFailures, hf, ih]
    rfl

/-- Round trip of a goal through its dict form. -/
theorem goalRoundtrip (now : String) (g : Goal) :
    Goal.fromJson now g.toDict = Except.ok g := by
  cases g with
  | mk descr pr sat ca req =>
    simp [Goal.fromJson, Goal.toDict, jStr, jInt, jBool, jStrList, jget, collectStrs_map_str]

/-- Round trip of the goals array. -/
theorem parseGoals_map (now : String) : ∀ gs : List Goal,
    parseGoals now (gs.map Goal.toDict) = Except.ok gs := by
  intro gs
  induction gs with
  | nil => rfl
  | cons g rest ih =>
    simp only [List.map_cons, parseGoals, goalRoundtrip, ih]
    rfl

/-- Round trip of a blueprint through its dict form: every field survives
except that the name is overwritten by the catalog key. -/
theorem blueprintRoundtripKey (now key : String) (bp : OrganBlueprint) :
    OrganBlueprint.fromJson now key bp.toDict =
      Except.ok { bp with name := key } := by
  cases bp with
  | mk n descr deps v ca ua =>
    simp [OrganBlueprint.fromJson, OrganBlueprint.toDict, jStr, jInt, jStrList, jget,
      collectStrs_map_str]

/-- Round trip of the blueprint catalog: keys replace the stored name fields. -/
theorem parseBlueprintEntries_map (now : String) :
    ∀ bps : List (String × OrganBlueprint),
    parseBlueprintEntries now (bps.map (fun p => (p.1, p.2.toDict))) =
      Except.ok (bps.map (fun p => (p.1, { p.2 with name := p.1 }))) := by
  intro bps
  induction bps with
  | nil => rfl
  | cons p rest ih =>
    simp only [List.map_cons, parseBlueprintEntries, blueprintRoundtripKey, ih]
    rfl

/-- Round trip of the metadata block. -/
theorem metadataRoundtrip (now : String) (m : DNAMetadata) :
    DNAMetadata.fromDict now [
      ("last_modified", Json.str m.last_modified),
      ("total_evolutions", Json.num m.total_evolutions),
      ("total_failures", Json.num m.total_failures),
      ("last_successful_organ", optStr m.last_successful_organ)] = m := by
  cases m with
  | mk a b c lso => cases lso <;> rfl

/-- Normal form that loading imposes on a genome: each blueprint record takes
its name from its catalog key. Deserialization can restore a genome exactly
iff the genome already has this shape. -/
def DNA.canonBlueprint (d : DNA) : DNA :=
  { d with blueprint := d.blueprint.map (fun p => (p.1, { p.2 with name := p.1 })) }

/-- Round trip of a whole genome through its dict form. -/
theorem dnaRoundtrip (now : String) (d : DNA) :
    DNA.fromDict now d.toDict = Except.ok d.canonBlueprint := by
  cases d with
  | mk sv sn bp gls am fls md =>
    simp [DNA.fromDict, DNA.toDict, DNA.canonBlueprint, jget, jStr, jStrList,
      parseBlueprintEntries_map, parseGoals_map, parseFailures_map,
      collectStrs_map_str, DNAMetadata.toDict, metadataRoundtrip]
    rfl

/-- First failure record for a module, as the Python for loops over
self.failures find it. -/
def lookupFailure (fs : List Failure) (name : String) : Option Failure :=
  fs.find? (fun f => f.module_name == name)

/-- In-place mutation of the first failure record matching the module name,
as the Python loops that assign to the found record and return. -/
def updateFirstFailure (name : String) (g : Failure → Failure) : List Failure → List Failure
  | [] => []
  | f :: fs =>
    if f.module_name == name then g f :: fs else f :: updateFirstFailure name g fs

/-- DNA.open_circuit from seaa/dna/schema.py. The parameter nowStr models the
ISO rendering of datetime.utcnow. -/
def DNA.open_circuit (nowStr : String) (d : DNA) (module_name : String) : DNA :=
  { d with failures := (updateFirstFailure module_name
      (fun f => { f with circuit_open := true, circuit_opened_at := some nowStr })
      d.failures) }

/-- DNA.is_circuit_open from seaa/dna/schema.py. -/
def DNA.is_circuit_open (d : DNA) (module_name : String) : Bool :=
  match lookupFailure d.failures module_name with
  | some f => f.circuit_open
  | none => false

/-- DNA.reset_circuit from seaa/dna/schema.py. -/
def DNA.reset_circuit (d : DNA) (module_name : String) : DNA :=
  { d with failures := (updateFirstFailure module_name
      (fun f => { f with circuit_open := false, circuit_opened_at := none, attempt_count := 0 })
      d.failures) }

/-- DNA.should_attempt from seaa/dna/schema.py. Returns the decision and the
genome after the lazy circuit transitions the method performs as side
effects. Time model: timeOf renders the stored ISO timestamp to epoch
seconds as datetime.fromisoformat does after stripping the Z suffix; now is
the current epoch second and nowStr its ISO rendering. The Python test
elapsed divided by sixty strictly below cooldown_minutes is the exact
integer condition now minus opened strictly below cooldown_minutes times
sixty. -/
def DNA.should_attempt (timeOf : String → Int) (now : Int) (nowStr : String)
    (d : DNA) (module_name : String) (max_attempts cooldown_minutes : Int) : Bool × DNA :=
  match lookupFailure d.failures module_name with
  | none => (true, d)
  | some f =>
    if f.circuit_open then
      match f.circuit_opened_at with
      | some openedAt =>
        if now - timeOf openedAt < cooldown_minutes * 60 then (false, d)
        else
          (true, { d with failures := (updateFirstFailure module_name
              (fun g => { g with circuit_open := false, circuit_opened_at := none })
              d.failures) })
      | none => (false, d)
    else if max_attempts ≤ f.attempt_count then
      (false, DNA.open_circuit nowStr d module_name)
    else (true, d)

/-- Python dict update of one key: replace in place or append at the end. -/
def dictSet (k : String) (v : Json) : List (String × Json) → List (String × Json)
  | [] => [(k, v)]
  | (k2, v2) :: rest =>
    if k2 == k then (k2, v) :: rest else (k2, v2) :: dictSet k v rest

/-- Python dict.update over all keys of the second mapping. -/
def dictUpdate (base : List (String × Json)) : List (String × Json) → List (String × Json)
  | [] => base
  | (k, v) :: rest => dictUpdate (dictSet k v base) rest

/-- DNA.add_failure from seaa/dna/schema.py: increments the existing record
for the module or appends a fresh one; total_failures counts only fresh
records. An absent Python context argument is the empty mapping here, which
is falsy exactly like None in the update branch. -/
def DNA.add_failure (nowStr : String) (d : DNA) (module_name : String)
    (error_type : FailureType) (message : String) (ctx : List (String × Json)) : DNA :=
  match lookupFailure d.failures module_name with
  | some _ =>
    { d with failures := (updateFirstFailure module_name (fun f =>
        { f with
          attempt_count := f.attempt_count + 1
          error_type := error_type
          error_message := message
          timestamp := nowStr
          context := if ctx.isEmpty then f.context else dictUpdate f.context ctx })
        d.failures) }
  | none =>
    { d with
      failures := d.failures ++ [{
        module_name := module_name
        error_type := error_type
        error_message := message
        timestamp := nowStr
        attempt_count := 1
        context := ctx
        circuit_open := false
        circuit_opened_at := none }]
      metadata := { d.metadata with total_failures := d.metadata.total_failures + 1 } }

/-- DNA.clear_failure from seaa/dna/schema.py. -/
def DNA.clear_failure (d : DNA) (module_name : String) : DNA :=
  { d with failures := d.failures.filter (fun f => f.module_name != module_name) }

/-- DNA.mark_active from seaa/dna/schema.py. -/
def DNA.mark_active (nowStr : String) (d : DNA) (module_name : String) : DNA :=
  { d with
    active_modules :=
      if d.active_modules.contains module_name then d.active_modules
      else d.active_modules ++ [module_name]
    metadata := { d.metadata with
      total_evolutions := d.metadata.total_evolutions + 1
      last_successful_organ := some module_name
      last_modified := nowStr } }

/-- DNA.mark_inactive from seaa/dna/schema.py: removes the first occurrence
from active_modules, a no-op when absent. -/
def DNA.mark_inactive (d : DNA) (module_name : String) : DNA :=
  { d with active_modules := d.active_modules.erase module_name }

/-- Scan for the closing bracket of a glob character class, accumulating the
class body; none when the class is unterminated. -/
def classScan (acc : List Char) : List Char → Option (List Char × List Char)
  | [] => none
  | c :: rest =>
    if c = ']' then some (acc.reverse, rest) else classScan (c :: acc) rest

/-- Parse a glob character class after the opening bracket, following
fnmatch.translate: a leading exclamation mark negates, a closing bracket
right after it is a literal member, and an unterminated class makes the
opening bracket literal. Returns negation flag, body and remaining pattern. -/
def parseClass (ps : List Char) : Option (Bool × List Char × List Char) :=
  match ps with
  | [] => none
  | c :: rest =>
    if c = '!' then
      match rest with
      | [] => none
      | c2 :: rest2 =>
        if c2 = ']' then (classScan [']'] rest2).map (fun p => (true, p.1, p.2))
        else (classScan [] rest).map (fun p => (true, p.1, p.2))
    else if c = ']' then (classScan [']'] rest).map (fun p => (false, p.1, p.2))
    else (classScan [] ps).map (fun p => (false, p.1, p.2))

/-- The remainder returned by classScan is shorter than the scanned list. -/
theorem classScan_lt : ∀ (cs acc body rest : List Char),
    classScan acc cs = some (body, rest) → rest.length < cs.length := by
  intro cs
  induction cs with
  | nil => intro acc body rest h; simp [classScan] at h
  | cons c cs ih =>
    intro acc body rest h
    by_cases hc : c = ']'
    · subst hc
      simp [classScan] at h
      rw [← h.2]
      simp
    · simp [classScan, hc] at h
      have := ih (c :: acc) body rest h
      simp
      omega

/-- The remaining pattern returned by parseClass is shorter than its input. -/
theorem parseClass_lt (ps : List Char) (neg : Bool) (body rest : List Char)
    (h : parseClass ps = some (neg, body, rest)) : rest.length < ps.length := by
  unfold parseClass at h
  split at h
  · simp at h
  next c tl =>
    by_cases hc : c = '!'
    · rw [if_pos hc] at h
      split at h
      · simp at h
      next c2 tl2 =>
        by_cases hc2 : c2 = ']'
        · rw [if_pos hc2, Option.map_eq_some'] at h
          obtain ⟨⟨b2, r2⟩, hscan, heq⟩ := h
          simp only [Prod.mk.injEq] at heq
          obtain ⟨-, -, hr⟩ := heq
          have := classScan_lt tl2 [']'] b2 r2 hscan
          rw [← hr]
          simp
          omega
        · rw [if_neg hc2, Option.map_eq_some'] at h
          obtain ⟨⟨b2, r2⟩, hscan, heq⟩ := h
          simp only [Prod.mk.injEq] at heq
          obtain ⟨-, -, hr⟩ := heq
          have := classScan_lt (c2 :: tl2) [] b2 r2 hscan
          rw [← hr]
          simp at this ⊢
          omega
    · rw [if_neg hc] at h
      by_cases hc2 : c = ']'
      · rw [if_pos hc2, Option.map_eq_some'] at h
        obtain ⟨⟨b2, r2⟩, hscan, heq⟩ := h
        simp only [Prod.mk.injEq] at heq
        obtain ⟨-, -, hr⟩ := heq
        have := classScan_lt tl [']'] b2 r2 hscan
        rw [← hr]
        simp
        omega
      · rw [if_neg hc2, Option.map_eq_some'] at h
        obtain ⟨⟨b2, r2⟩, hscan, heq⟩ := h
        simp only [Prod.mk.injEq] at heq
        obtain ⟨-, -, hr⟩ := heq
        rw [← hr]
        exact classScan_lt (c :: tl) [] b2 r2 hscan

/-- Membership of a character in a class body, with dash ranges; a dash at
either end is literal. -/
def inClass : List Char → Char → Bool
  | [], _ => false
  | a :: '-' :: b :: rest, c =>
    (decide (a.toNat ≤ c.toNat) && decide (c.toNat ≤ b.toNat)) || inClass rest c
  | a :: rest, c => a == c || inClass rest c

/-- Glob matching with explicit fuel so that the kernel can evaluate it.
Every recursive call strictly decreases the combined length of the pattern
and the input, so with the fuel supplied by globMatch the zero-fuel branch
is unreachable; globMatchFuel_congr below proves fuel irrelevance. -/
def globMatchFuel : Nat → List Char → List Char → Bool
  | 0, _, _ => false
  | fuel + 1, p, s =>
    match p with
    | [] => s.isEmpty
    | p1 :: ps =>
      if p1 = '*' then
        globMatchFuel fuel ps s ||
          (match s with
           | [] => false
           | _ :: s2 => globMatchFuel fuel (p1 :: ps) s2)
      else if p1 = '?' then
        (match s with
         | [] => false
         | _ :: s2 => globMatchFuel fuel ps s2)
      else if p1 = '[' then
        (match parseClass ps with
         | some (neg, body, rest) =>
           (match s with
            | [] => false
            | c :: s2 => (inClass body c != neg) && globMatchFuel fuel rest s2)
         | none =>
           (match s with
            | [] => false
            | c :: s2 => (c == '[') && globMatchFuel fuel ps s2))
      else
        (match s with
         | [] => false
         | c :: s2 => (p1 == c) && globMatchFuel fuel ps s2)

/-- Glob matching as fnmatch.fnmatchcase performs it: star matches any
sequence, question mark one character, bracket classes as above, everything
else literally. On POSIX os.path.normcase is the identity, so
fnmatch.fnmatch coincides with this. First argument is the pattern, second
the candidate name. -/
def globMatch (p s : List Char) : Bool :=
  globMatchFuel (p.length + s.length + 1) p s

/-- Fuel irrelevance: any fuel above the combined pattern and input length
computes the same answer, so the zero-fuel branch of globMatchFuel is
unreachable from globMatch. -/
theorem globMatchFuel_congr : ∀ (fuel1 fuel2 : Nat) (p s : List Char),
    p.length + s.length < fuel1 → p.length + s.length < fuel2 →
    globMatchFuel fuel1 p s = globMatchFuel fuel2 p s := by
  intro fuel1
  induction fuel1 with
  | zero => intro fuel2 p s h1 _; omega
  | succ f1 ih =>
    intro fuel2 p s h1 h2
    match fuel2 with
    | 0 => omega
    | f2 + 1 =>
      match p with
      | [] => rfl
      | p1 :: ps =>
        simp only [globMatchFuel]
        by_cases hstar : p1 = '*'
        · subst hstar
          rw [if_pos rfl, if_pos rfl]
          have e1 : globMatchFuel f1 ps s = globMatchFuel f2 ps s := by
            apply ih
            · simp at h1; omega
            · simp at h2; omega
          rw [e1]
          match s with
          | [] => rfl
          | c :: s2 =>
            have e2 : globMatchFuel f1 ('*' :: ps) s2 = globMatchFuel f2 ('*' :: ps) s2 := by
              apply ih
              · simp at h1 ⊢; omega
              · simp at h2 ⊢; omega
            simp [e2]
        · rw [if_neg hstar, if_neg hstar]
          by_cases hq : p1 = '?'
          · rw [if_pos hq, if_pos hq]
            match s with
            | [] => rfl
            | c :: s2 =>
              have e : globMatchFuel f1 ps s2 = globMatchFuel f2 ps s2 := by
                apply ih
                · simp at h1 ⊢; omega
                · simp at h2 ⊢; omega
              simp [e]
          · rw [if_neg hq, if_neg hq]
            by_cases hb : p1 = '['
            · rw [if_pos hb, if_pos hb]
              match hpc : parseClass ps with
              | some (neg, body, rest) =>
                match s with
                | [] => rfl
                | c :: s2 =>
                  have hlt := parseClass_lt ps neg body rest hpc
                  have e : globMatchFuel f1 rest s2 = globMatchFuel f2 rest s2 := by
                    apply ih
                    · simp at h1 ⊢; omega
                    · simp at h2 ⊢; omega
                  simp [e]
              | none =>
                match s with
                | [] => rfl
                | c :: s2 =>
                  have e : globMatchFuel f1 ps s2 = globMatchFuel f2 ps s2 := by
                    apply ih
                    · simp at h1 ⊢; omega
                    · simp at h2 ⊢; omega
                  simp [e]
            · rw [if_neg hb, if_neg hb]
              match s with
              | [] => rfl
              | c :: s2 =>
                have e : globMatchFuel f1 ps s2 = globMatchFuel f2 ps s2 := by
                  apply ih
                  · simp at h1 ⊢; omega
                  · simp at h2 ⊢; omega
                simp [e]

/-- fnmatch.fnmatch(name, pattern) as used by check_goal_satisfaction. -/
def fnmatch (name pattern : String) : Bool :=
  globMatch pattern.data name.data

/-- All required patterns of a goal match at least one active module. -/
def goalPatternsMatched (active : List String) (g : Goal) : Bool :=
  g.required_organs.all (fun pattern => active.any (fun m => fnmatch m pattern))

/-- Goal scan of DNA.check_goal_satisfaction, processing goals in order and
counting the newly satisfied ones. -/
def checkGoalsAux (active : List String) : List Goal → List Goal × Nat
  | [] => ([], 0)
  | g :: gs =>
    let p := checkGoalsAux active gs
    if g.satisfied then (g :: p.1, p.2)
    else if g.required_organs.isEmpty then (g :: p.1, p.2)
    else if goalPatternsMatched active g then ({ g with satisfied := true } :: p.1, p.2 + 1)
    else (g :: p.1, p.2)

/-- DNA.check_goal_satisfaction from seaa/dna/schema.py: updates goal
satisfaction from active modules and returns the count of newly satisfied
goals. -/
def DNA.check_goal_satisfaction (d : DNA) : DNA × Nat :=
  let p := checkGoalsAux d.active_modules d.goals
  ({ d with goals := p.1 }, p.2)

/-- Raw byte content of the persisted genome file: either a JSON document or
a non-JSON byte string, the latter distinguished only by a tag since its
bytes never matter beyond their digest. -/
inductive RawContent where
  | valid : Json → RawContent
  | invalid : Nat → RawContent
  deriving DecidableEq

/-- Persistence errors from seaa/core/exceptions.py. -/
inductive DNAError where
  | notFound : DNAError
  | corrupted : DNAError
  | validationError : DNAError
  deriving DecidableEq

deriving instance DecidableEq for Except

/-- Relevant on-disk state of a DNARepository: the genome file and the
companion digest file. The digest entry is none when that file is missing,
an error value when reading it would raise, ok with its text otherwise. -/
structure RepoState where
  dnaFile : Option RawContent
  hashFile : Option (Except Unit String)
  deriving DecidableEq

/-- ASCII whitespace as Python str.strip removes it. -/
def pyIsSpace (c : Char) : Bool :=
  c == ' ' || c == '\t' || c == '\n' || c == '\r' || c == '\x0b' || c == '\x0c'

/-- Python str.strip restricted to ASCII whitespace: drop it from both
ends. -/
def pyStrip (s : String) : String :=
  String.mk (((s.data.dropWhile pyIsSpace).reverse.dropWhile pyIsSpace).reverse)

/-- DNARepository._verify_hash from seaa/dna/repository.py: passes when the
digest file is missing (first run) or unreadable (allow on error to prevent
lockout); otherwise the stripped stored digest must equal the computed one.
The parameter H abstracts the SHA-256 hex digest of the content bytes. -/
def verifyHash (H : RawContent → String) (st : RepoState) (content : RawContent) : Bool :=
  match st.hashFile with
  | none => true
  | some (Except.error _) => true
  | some (Except.ok stored) => pyStrip stored == H content

/-- Parsing stage of DNARepository.load, after the integrity check: invalid
JSON raises DNACorruptedError, a schema error raises DNAValidationError.
The now parameter feeds the default timestamps of DNA.from_dict. -/
def parseLoaded (now : String) : RawContent → Except DNAError DNA
  | RawContent.invalid _ => Except.error DNAError.corrupted
  | RawContent.valid j =>
    match DNA.fromDict now j with
    | Except.ok d => Except.ok d
    | Except.error _ => Except.error DNAError.validationError

/-- DNARepository.load from seaa/dna/repository.py: a missing file raises
DNANotFoundError; a failed integrity check, performed before parsing,
raises DNACorruptedError; then parseLoaded takes over. Read errors on the
genome file itself, an environmental condition, are not modelled. -/
def RepoState.load (verify_integrity : Bool) (H : RawContent → String) (now : String)
    (st : RepoState) : Except DNAError DNA :=
  match st.dnaFile with
  | none => Except.error DNAError.notFound
  | some content =>
    if verify_integrity && ¬ verifyHash H st content then Except.error DNAError.corrupted
    else parseLoaded now content

/-- Genome as mutated by save before serialization: metadata.last_modified
is set to the current time. -/
def DNA.stamp (d : DNA) (nowStr : String) : DNA :=
  { d with metadata := { d.metadata with last_modified := nowStr } }

/-- DNARepository.save from seaa/dna/repository.py: stamps last_modified,
writes the serialized genome atomically, then persists the digest of the
exact written bytes when integrity verification is on. Backups and change
callbacks do not affect the modelled state; a failed digest write, which
the code only logs, is an unmodelled environmental condition. -/
def RepoState.save (verify_integrity : Bool) (H : RawContent → String) (nowStr : String)
    (st : RepoState) (dna : DNA) : RepoState :=
  let content := RawContent.valid (DNA.toDict (DNA.stamp dna nowStr))
  { dnaFile := some content
    hashFile := if verify_integrity then some (Except.ok (H content)) else st.hashFile }

/-- Prefix test over characters, modelling str.startswith; kernel
evaluable unlike the substring based library function. -/
def strStarts (pre s : String) : Bool :=
  List.isPrefixOf pre.data s.data

/-- Character membership in a string, modelling the Python in operator on
one-character needles. -/
def strHasChar (s : String) (c : Char) : Bool :=
  s.data.contains c

/-- Split on a one-character separator, modelling str.split with that
separator (and String.splitOn, which agrees on one-character separators). -/
def splitOnCharAux (sep : Char) : List Char → List Char → List (List Char)
  | acc, [] => [acc.reverse]
  | acc, c :: rest =>
    if c = sep then acc.reverse :: splitOnCharAux sep [] rest
    else splitOnCharAux sep (c :: acc) rest

/-- Split a string on a one-character separator. -/
def splitOnChar (sep : Char) (s : String) : List String :=
  (splitOnCharAux sep [] s.data).map String.mk

/-- ASCII lower casing, modelling str.lower on ASCII input. -/
def lowerAscii (s : String) : String :=
  String.mk (s.data.map Char.toLower)

/-- Characters of the git config allow-list pattern of
seaa/kernel/genealogy.py: ASCII letters and digits, at sign, dot,
underscore, dash, and the whitespace class. Values reaching the pattern
test contain no newline or carriage return since those are rejected
earlier. The model restricts the regex whitespace class to ASCII; a value
whose only unusual characters are non-ASCII unicode whitespace would pass
the Python pattern but not this one. -/
def safeConfigChar (c : Char) : Bool :=
  c.isAlpha || c.isDigit || c == '@' || c == '.' || c == '_' || c == '-' ||
  c == ' ' || c == '\t' || c == '\n' || c == '\r' || c == '\x0b' || c == '\x0c'

/-- Genealogy._validate_config_value from seaa/kernel/genealogy.py: security
validation of git config values such as the author identity; invalid values
are rejected, never sanitized. -/
def validateConfigValue (value field_name : String) : Except String String :=
  if value == "" then Except.error (field_name ++ ": must be non-empty string")
  else if 200 < value.length then Except.error (field_name ++ ": exceeds maximum length")
  else if strStarts "-" value then Except.error (field_name ++ ": cannot start with dash")
  else if strHasChar value '\n' || strHasChar value '\r' then
    Except.error (field_name ++ ": cannot contain newlines")
  else if strHasChar value '\x00' then
    Except.error (field_name ++ ": cannot contain null bytes")
  else if ¬ (value.data.all safeConfigChar) then
    Except.error (field_name ++ ": contains invalid characters")
  else Except.ok value

/-- Escape of double quotes as str.replace writes a backslash before each. -/
def escapeQuotes (s : String) : String :=
  String.mk (s.data.flatMap (fun c => if c == '"' then ['\\', '"'] else [c]))

/-- Removal of null characters, modelling str.replace with empty
replacement. -/
def removeNulls (s : String) : String :=
  String.mk (s.data.filter (fun c => c != '\x00'))

/-- First n characters, modelling Python slicing. -/
def takeChars (s : String) (n : Nat) : String :=
  String.mk (s.data.take n)

/-- Genealogy._validate_commit_message from seaa/kernel/genealogy.py: an
empty message becomes a default; otherwise the message is truncated to 500
characters, null bytes are removed and double quotes escaped. The message
is sanitized and used, never rejected. -/
def validateCommitMessage (message : String) : String :=
  if message == "" then "Evolution snapshot"
  else escapeQuotes (removeNulls (takeChars message 500))

/-- Genealogy.commit from seaa/kernel/genealogy.py, modelling the control
flow around the git subprocess: disabled genealogy or a clean working tree
commits nothing; otherwise git commit runs with the sanitized message.
Returns whether a commit ran and the message it ran with. Git process
failures, an environmental condition, are not modelled. -/
def genealogyCommit (enabled has_changes : Bool) (message : String) : Bool × Option String :=
  if ¬ enabled then (false, none)
  else
    let safe := validateCommitMessage message
    if ¬ has_changes then (false, none)
    else (true, some safe)

/-- Event from seaa/kernel/bus.py. -/
structure Event where
  event_type : String
  data : Json
  timestamp : String
  source : String
  correlation_id : String
  deriving DecidableEq

/-- A subscriber callback over a world state: from the state at call time it
yields the state when it returns or when an exception escapes, paired with
that escaping exception if any, so partial effects of a failing callback
persist exactly as in Python. -/
def Handler (σ ε : Type) := σ → σ × Option ε

/-- EventBus state from seaa/kernel/bus.py: per-topic subscriber lists in
registration order, the retention deque with its bound, and the bounded
async queue, capacity 1000 in init. -/
structure EventBus (σ ε : Type) where
  subscribers : List (String × List (Handler σ ε))
  retained : List Event
  maxRetained : Nat
  queue : List Event
  maxsize : Nat

/-- Fresh bus as EventBus init builds it. -/
def EventBus.init (σ ε : Type) (maxRetained : Nat) : EventBus σ ε :=
  { subscribers := [], retained := [], maxRetained := maxRetained, queue := [], maxsize := 1000 }

/-- Registration: a new topic is added at the end, an existing topic gets
the callback appended to its list. -/
def addSubscriber {σ ε : Type} (t : String) (h : Handler σ ε) :
    List (String × List (Handler σ ε)) → List (String × List (Handler σ ε))
  | [] => [(t, [h])]
  | (k, hs) :: rest =>
    if k == t then (k, hs ++ [h]) :: rest else (k, hs) :: addSubscriber t h rest

/-- EventBus.subscribe from seaa/kernel/bus.py. -/
def EventBus.subscribe {σ ε : Type} (bus : EventBus σ ε) (event_type : String)
    (h : Handler σ ε) : EventBus σ ε :=
  { bus with subscribers := addSubscriber event_type h bus.subscribers }

/-- Snapshot of the listeners registered for a topic. -/
def subscribersFor {σ ε : Type} (subs : List (String × List (Handler σ ε)))
    (t : String) : List (Handler σ ε) :=
  match subs.find? (fun p => p.1 == t) with
  | some p => p.2
  | none => []

/-- Append to the retention deque, dropping the oldest entries beyond the
bound, as collections.deque with maxlen behaves. -/
def pushRetained (maxlen : Nat) (l : List Event) (ev : Event) : List Event :=
  let l2 := l ++ [ev]
  if maxlen < l2.length then l2.drop (l2.length - maxlen) else l2

/-- Sequential delivery: each callback runs on the state left by the
previous one; an escaping exception is collected and delivery continues. -/
def runHandlers {σ ε : Type} : List (Handler σ ε) → σ → σ × List ε
  | [], s => (s, [])
  | h :: hs, s =>
    let r := h s
    let rest := runHandlers hs r.1
    (rest.1, match r.2 with | some e => e :: rest.2 | none => rest.2)

/-- EventBus.publish from seaa/kernel/bus.py: retain the event when
retention is on, snapshot the listeners for the topic, return if there are
none, otherwise call each in order on the calling thread, catching and
logging every exception. Returns the bus, the world state after all
callbacks ran, and the exceptions caught and logged. -/
def EventBus.publish {σ ε : Type} (bus : EventBus σ ε) (ev : Event) (s : σ) :
    EventBus σ ε × σ × List ε :=
  let bus1 :=
    if 0 < bus.maxRetained then
      { bus with retained := pushRetained bus.maxRetained bus.retained ev }
    else bus
  let listeners := subscribersFor bus1.subscribers ev.event_type
  if listeners.isEmpty then (bus1, s, [])
  else
    let r := runHandlers listeners s
    (bus1, r.1, r.2)

/-- queue.Queue.put_nowait: raises Full exactly when maxsize items are
already queued. The bus always constructs the queue with a positive bound
of 1000; a Python maxsize of zero would mean unbounded and is not
modelled. -/
def putNowait (maxsize : Nat) (q : List Event) (ev : Event) : Except Unit (List Event) :=
  if maxsize ≤ q.length then Except.error () else Except.ok (q ++ [ev])

/-- EventBus.publish_async from seaa/kernel/bus.py: enqueue without
blocking; on a full queue the Full exception is caught, the new event is
dropped and a warning logged. The Bool reports whether the warning fired. -/
def EventBus.publish_async {σ ε : Type} (bus : EventBus σ ε) (ev : Event) :
    EventBus σ ε × Bool :=
  match putNowait bus.maxsize bus.queue ev with
  | Except.ok q2 => ({ bus with queue := q2 }, false)
  | Except.error _ => (bus, true)

/-- One drain step of the background worker loop: the oldest queued event is
taken and delivered through publish, giving FIFO consumption. -/
def EventBus.workerStep {σ ε : Type} (bus : EventBus σ ε) (s : σ) :
    EventBus σ ε × σ × List ε :=
  match bus.queue with
  | [] => (bus, s, [])
  | ev :: rest => EventBus.publish { bus with queue := rest } ev s

/-- Protected kernel namespaces from config.security.protected_prefixes in
seaa/core/config.py. -/
def protectedNamespaces : List String := ["seaa.", "seaa/"]

/-- Materialization failures from seaa/core/exceptions.py: the reasons the
materializer raises MaterializationError or KernelProtectionError. -/
inductive MatError where
  | invalidName : MatError
  | kernelProtection : MatError
  | pathTraversal : MatError
  | missingSomaDot : MatError
  deriving DecidableEq

/-- Start character of an identifier component of the module name pattern
in seaa/kernel/materializer.py; the IGNORECASE regex accepts both cases,
restricted here to ASCII. -/
def identStart (c : Char) : Bool := c.isAlpha || c == '_'

/-- Continuation character of an identifier component. -/
def identChar (c : Char) : Bool := c.isAlpha || c.isDigit || c == '_'

/-- One identifier component: letters, digits and underscores, not starting
with a digit, nonempty. This is also the ASCII restriction of the Python
str.isidentifier check. -/
def isIdentComp (s : String) : Bool :=
  match s.data with
  | [] => false
  | c :: rest => identStart c && rest.all identChar

/-- The strict MODULE_NAME_PATTERN regex of seaa/kernel/materializer.py:
a case-insensitive soma head followed by one or more dot-separated
identifier components. -/
def moduleNamePatternOk (module_name : String) : Bool :=
  match splitOnChar '.' module_name with
  | [] => false
  | head :: comps =>
    lowerAscii head == "soma" && ¬ comps.isEmpty && comps.all isIdentComp

/-- Quick alphabetic pre-check a part of the name gets before the full
identifier check: with underscores and digits removed the rest must be
nonempty and alphabetic. A part failing this but passing str.isidentifier
is still accepted, exactly as in the code. -/
def quickAlpha (s : String) : Bool :=
  let stripped := s.data.filter (fun c => ¬ (c == '_' || c.isDigit))
  ¬ stripped.isEmpty && stripped.all Char.isAlpha

/-- Double dot detection used by the explicit path traversal check. -/
def hasDoubleDot : List Char → Bool
  | [] => false
  | '.' :: '.' :: _ => true
  | _ :: rest => hasDoubleDot rest

/-- Materializer._validate_module_name from seaa/kernel/materializer.py:
empty names, names failing the strict pattern, consecutive dots and parts
that are neither quickly alphabetic nor identifiers are rejected. -/
def validateModuleName (module_name : String) : Except MatError Unit :=
  if module_name == "" then Except.error MatError.invalidName
  else if ¬ moduleNamePatternOk module_name then Except.error MatError.invalidName
  else if hasDoubleDot module_name.data then Except.error MatError.pathTraversal
  else if (splitOnChar '.' module_name).any (fun p => ¬ quickAlpha p && ¬ isIdentComp p) then
    Except.error MatError.invalidName
  else Except.ok ()

/-- Path built from the module name parts before resolution: root, then the
package directories, then the file named after the last part. -/
def modulePathRaw (root : List String) (module_name : String) : List String :=
  let parts := splitOnChar '.' module_name
  root ++ parts.dropLast ++ [parts.getLastD "" ++ ".py"]

/-- Materializer._module_to_path from seaa/kernel/materializer.py. Paths are
segment lists; resolveFn models Path.resolve, the symlink and dot
resolution performed by the operating system; containment is relative_to
succeeding, that is the resolved root being a segment prefix of the
resolved target. The unresolved path is returned, as in the code. -/
def moduleToPath (resolveFn : List String → List String) (root : List String)
    (module_name : String) : Except MatError (List String) :=
  match validateModuleName module_name with
  | Except.error e => Except.error e
  | Except.ok _ =>
    let path := modulePathRaw root module_name
    if (resolveFn root).isPrefixOf (resolveFn path) then Except.ok path
    else Except.error MatError.pathTraversal

/-- Filesystem effect model: the list of organ files written, as path
segments paired with content. -/
abbrev FS := List (List String × String)

/-- Materializer.materialize from seaa/kernel/materializer.py: validate the
name format, refuse protected kernel namespaces, require the soma prefix,
resolve the path refusing escapes from the deployment root, then write.
Every rejection happens before any filesystem effect; on success the model
records the organ file write, the final effect, while the package init
files created just before it carry no organ content. -/
def Materializer.materialize (resolveFn : List String → List String)
    (root : List String) (protected_list : List String)
    (fs : FS) (module_name code : String) : Except MatError (List String) × FS :=
  match validateModuleName module_name with
  | Except.error e => (Except.error e, fs)
  | Except.ok _ =>
    if protected_list.any (fun p => strStarts p module_name) then
      (Except.error MatError.kernelProtection, fs)
    else if ¬ strStarts "soma." module_name then
      (Except.error MatError.missingSomaDot, fs)
    else
      match moduleToPath resolveFn root module_name with
      | Except.error e => (Except.error e, fs)
      | Except.ok path => (Except.ok path, fs ++ [(path, code)])

/-- Default retry bound of the generation pipeline: config.llm.max_retries
and the signature default of _generate_with_validation are both 3. -/
def llmMaxRetriesDefault : Nat := 3

/-- Retry loop of ProviderGateway._generate_with_validation from
seaa/connectors/llm_gateway.py. The pluggable pieces are parameters: gen
models _generate over the attempt index and current prompt, cleanCode
models _clean_code, validateCode models validate_code with none for valid
and the diagnostic otherwise, and feedbackOf models the sanitation and
template rendering of the diagnostic into the feedback block. On a missing
response the prompt is kept; on rejection the next prompt is the base
prompt plus the feedback for the latest diagnostic; a valid response
returns the cleaned code; an exhausted loop returns none. -/
def genLoop (gen : Nat → String → Option String) (cleanCode : String → String)
    (validateCode : String → Option String) (feedbackOf : String → String)
    (basePrompt : String) : Nat → Nat → String → Option String
  | 0, _, _ => none
  | k + 1, attempt, currentPrompt =>
    match gen attempt currentPrompt with
    | none =>
      genLoop gen cleanCode validateCode feedbackOf basePrompt k (attempt + 1) currentPrompt
    | some response =>
      let code := cleanCode response
      match validateCode code with
      | none => some code
      | some err =>
        genLoop gen cleanCode validateCode feedbackOf basePrompt k (attempt + 1)
          (basePrompt ++ feedbackOf err)

/-- Entry point of the retry loop: attempt zero with the base prompt as the
current prompt, for max_retries attempts. -/
def generateWithValidation (gen : Nat → String → Option String)
    (cleanCode : String → String) (validateCode : String → Option String)
    (feedbackOf : String → String) (prompt : String) (max_retries : Nat) : Option String :=
  genLoop gen cleanCode validateCode feedbackOf prompt max_retries 0 prompt

/-- Result of one orchestrator evolution step. -/
structure EvolveOutcome where
  success : Bool
  dna : DNA
  materializedPath : Option (List String)
  fs : FS

/-- Genesis._evolve_organ from seaa/kernel/genesis.py: consult the circuit
breaker, which may mutate the genome as a side effect, enforce the total
organ cap, take the gateway outcome from the generated parameter, then
materialize, mark active and clear failures; a missing generation records a
generation failure, a materialization error records a materialization
failure with the stringified exception abstracted to a constant. Snapshot
commit and event publication do not change the modelled state. -/
def evolveOrgan (timeOf : String → Int) (now : Int) (nowStr : String)
    (max_attempts cooldown_minutes : Int) (max_total_organs : Nat)
    (generated : Option String)
    (resolveFn : List String → List String) (root : List String)
    (protected_list : List String) (fs : FS)
    (d : DNA) (organ_name : String) : EvolveOutcome :=
  let gate := DNA.should_attempt timeOf now nowStr d organ_name max_attempts cooldown_minutes
  if ¬ gate.1 then
    { success := false, dna := gate.2, materializedPath := none, fs := fs }
  else if max_total_organs ≤ gate.2.active_modules.length then
    { success := false, dna := gate.2, materializedPath := none, fs := fs }
  else
    match generated with
    | none =>
      { success := false
        dna := DNA.add_failure nowStr gate.2 organ_name FailureType.generation
          "LLM failed to generate code" []
        materializedPath := none
        fs := fs }
    | some code =>
      match Materializer.materialize resolveFn root protected_list fs organ_name code with
      | (Except.error _, fs2) =>
        { success := false
          dna := DNA.add_failure nowStr gate.2 organ_name FailureType.materialization
            "materialization failed" []
          materializedPath := none
          fs := fs2 }
      | (Except.ok path, fs2) =>
        { success := true
          dna := DNA.clear_failure (DNA.mark_active nowStr gate.2 organ_name) organ_name
          materializedPath := some path
          fs := fs2 }

/-- Instrumented subscriber used to observe delivery: it appends its index
to the trace state and optionally raises after its effect. -/
def tracedHandler (i : Nat) (raises : Bool) : Handler (List Nat) Unit :=
  fun tr => (tr ++ [i], if raises then some () else none)

/-- Bus built by subscribing the given instrumented handlers, in order, to
one topic. -/
def busWithTopic (t : String) (hs : List (Nat × Bool)) : EventBus (List Nat) Unit :=
  hs.foldl (fun b p => EventBus.subscribe b t (tracedHandler p.1 p.2))
    (EventBus.init (List Nat) Unit 100)

/-- Subscribing repeatedly to one topic extends that topic entry in order. -/
theorem foldSubscribe_subscribers (t : String) :
    ∀ (hs : List (Nat × Bool)) (bus : EventBus (List Nat) Unit)
      (l : List (Handler (List Nat) Unit)),
    bus.subscribers = [(t, l)] →
    (hs.foldl (fun b p => EventBus.subscribe b t (tracedHandler p.1 p.2)) bus).subscribers
      = [(t, l ++ hs.map (fun p => tracedHandler p.1 p.2))] := by
  intro hs
  induction hs with
  | nil => intro bus l h; simpa using h
  | cons p rest ih =>
    intro bus l h
    simp only [List.foldl_cons, List.map_cons]
    rw [ih (EventBus.subscribe bus t (tracedHandler p.1 p.2)) (l ++ [tracedHandler p.1 p.2])
        (by simp [EventBus.subscribe, h, addSubscriber])]
    simp

/-- Delivery over instrumented handlers: every handler appends its index in
order, and every raised exception is collected. -/
theorem runHandlers_traced : ∀ (hs : List (Nat × Bool)) (s0 : List Nat),
    runHandlers (hs.map (fun p => tracedHandler p.1 p.2)) s0
      = (s0 ++ hs.map (fun p => p.1),
         List.replicate (hs.filter (fun p => p.2)).length ()) := by
  intro hs
  induction hs with
  | nil => intro s0; simp [runHandlers]
  | cons p rest ih =>
    intro s0
    simp only [List.map_cons, runHandlers, tracedHandler, ih]
    cases hp : p.2 <;> simp [hp, List.filter_cons, List.replicate]

/-- Publish only reads the subscriber table for its delivery effect: the
state and exception components depend on the listeners of the topic alone,
with the empty-listener early return. -/
theorem publish_effect {σ ε : Type} (bus : EventBus σ ε) (ev : Event) (s : σ) :
    (EventBus.publish bus ev s).2 =
      (if (subscribersFor bus.subscribers ev.event_type).isEmpty then (s, [])
       else runHandlers (subscribersFor bus.subscribers ev.event_type) s) := by
  by_cases h : 0 < bus.maxRetained
  · simp only [EventBus.publish, if_pos h]
    split <;> rfl
  · simp only [EventBus.publish, if_neg h]
    split <;> rfl

/-- C6: synchronous publish invokes every subscriber of the topic on the
callers control flow in registration order before returning, for any
combination of raising and non-raising subscribers; exceptions are caught,
collected for logging, and do not stop delivery to the remaining
subscribers; publishing on a bus with no subscribers for the topic returns
with the state unchanged and nothing escaping. -/
theorem c6_publish_sync_delivery (t ts src cid : String) (dj : Json)
    (hs : List (Nat × Bool)) (s0 : List Nat) :
    ((EventBus.publish (busWithTopic t hs) ⟨t, dj, ts, src, cid⟩ s0).2
        = (s0 ++ hs.map (fun p => p.1),
           List.replicate (hs.filter (fun p => p.2)).length ())) ∧
    ((EventBus.publish (EventBus.init (List Nat) Unit 100) ⟨t, dj, ts, src, cid⟩ s0).2
        = (s0, [])) := by
  constructor
  · match hs with
    | [] =>
      rw [publish_effect]
      simp [busWithTopic, EventBus.init, subscribersFor]
    | p :: rest =>
      have hsubs : (busWithTopic t (p :: rest)).subscribers
          = [(t, (p :: rest).map (fun q => tracedHandler q.1 q.2))] := by
        have h1 : (EventBus.subscribe (EventBus.init (List Nat) Unit 100) t
            (tracedHandler p.1 p.2)).subscribers = [(t, [tracedHandler p.1 p.2])] := by
          simp [EventBus.subscribe, EventBus.init, addSubscriber]
        calc (busWithTopic t (p :: rest)).subscribers
            = (rest.foldl (fun b q => EventBus.subscribe b t (tracedHandler q.1 q.2))
                (EventBus.subscribe (EventBus.init (List Nat) Unit 100) t
                  (tracedHandler p.1 p.2))).subscribers := by
              simp [busWithTopic]
          _ = [(t, [tracedHandler p.1 p.2] ++ rest.map (fun q => tracedHandler q.1 q.2))] :=
              foldSubscribe_subscribers t rest _ _ h1
          _ = [(t, (p :: rest).map (fun q => tracedHandler q.1 q.2))] := by simp
      rw [publish_effect, hsubs]
      simp only [subscribersFor, List.find?]
      have hrun := runHandlers_traced (p :: rest) s0
      simp only [List.map_cons] at hrun
      simp [hrun]
  · rw [publish_effect]
    simp [EventBus.init, subscribersFor]

/-- C8: publish_async never blocks or raises; the queue built by init is
bounded at 1000; on a full queue the newly published event is the one
dropped, the queue is unchanged and a warning is logged; on a non-full
queue the event is appended at the back, and the worker consumes from the
front, so queued delivery is FIFO. -/
theorem c8_publish_async_backpressure {σ ε : Type} (bus : EventBus σ ε) (ev : Event) :
    (EventBus.init σ ε 100).maxsize = 1000 ∧
    (bus.maxsize ≤ bus.queue.length →
      EventBus.publish_async bus ev = (bus, true)) ∧
    (bus.queue.length < bus.maxsize →
      EventBus.publish_async bus ev = ({ bus with queue := bus.queue ++ [ev] }, false)) ∧
    (∀ (rest : List Event) (s : σ), bus.queue = ev :: rest →
      EventBus.workerStep bus s = EventBus.publish { bus with queue := rest } ev s) := by
  refine ⟨rfl, ?_, ?_, ?_⟩
  · intro h
    simp [EventBus.publish_async, putNowait, h]
  · intro h
    simp [EventBus.publish_async, putNowait, Nat.not_le.mpr h]
  · intro rest s h
    simp [EventBus.workerStep, h]

/-- Witness for C8 at concrete buses: a full queue of capacity one drops the
event and warns; an empty queue of capacity one enqueues it. -/
theorem c8_witness :
    (EventBus.publish_async (σ := Unit) (ε := Unit)
        { subscribers := [], retained := [], maxRetained := 0,
          queue := [⟨"old", Json.null, "ts", "s", "c"⟩], maxsize := 1 }
        ⟨"new", Json.null, "ts", "s", "c"⟩
      = ({ subscribers := [], retained := [], maxRetained := 0,
           queue := [⟨"old", Json.null, "ts", "s", "c"⟩], maxsize := 1 }, true)) ∧
    (EventBus.publish_async (σ := Unit) (ε := Unit)
        { subscribers := [], retained := [], maxRetained := 0,
          queue := [], maxsize := 1 }
        ⟨"new", Json.null, "ts", "s", "c"⟩
      = ({ subscribers := [], retained := [], maxRetained := 0,
           queue := [⟨"new", Json.null, "ts", "s", "c"⟩], maxsize := 1 }, false)) := by
  constructor
  · exact (c8_publish_async_backpressure _ _).2.1 (by simp)
  · exact (c8_publish_async_backpressure _ _).2.2.1 (by simp)

/-- Head shape of the goal scan on a cons cell. -/
theorem checkGoalsAux_cons (active : List String) (g : Goal) (rest : List Goal) :
    (checkGoalsAux active (g :: rest)).1
      = (if g.satisfied then g
         else if g.required_organs.isEmpty then g
         else if goalPatternsMatched active g then { g with satisfied := true }
         else g) :: (checkGoalsAux active rest).1 := by
  by_cases h1 : g.satisfied <;> by_cases h2 : g.required_organs.isEmpty <;>
    by_cases h3 : goalPatternsMatched active g <;>
    simp [checkGoalsAux, h1, h2, h3]

/-- The branchwise update of one goal equals setting satisfied to the
disjunction of its previous flag and the all-patterns-matched test. -/
theorem goal_update_eq (active : List String) (g : Goal)
    (hreq : g.required_organs ≠ []) :
    (if g.satisfied then g
     else if g.required_organs.isEmpty then g
     else if goalPatternsMatched active g then { g with satisfied := true }
     else g)
    = { g with satisfied := g.satisfied || goalPatternsMatched active g } := by
  have hne : g.required_organs.isEmpty = false := by
    cases hh : g.required_organs with
    | nil => exact absurd hh hreq
    | cons a l => rfl
  by_cases h1 : g.satisfied
  · simp only [h1, if_true, Bool.true_or]
    cases g
    simp_all
  · have h1f : g.satisfied = false := by simpa using h1
    simp only [h1f, Bool.false_eq_true, if_false, hne, Bool.false_or]
    by_cases h3 : goalPatternsMatched active g
    · simp [h3]
    · have h3f : goalPatternsMatched active g = false := by simpa using h3
      simp only [h3f, Bool.false_eq_true, if_false]
      cases g
      simp_all

/-- Goals already satisfied pass through the satisfaction check unchanged,
whatever the active set is. -/
theorem checkGoalsAux_keeps_satisfied (active : List String) :
    ∀ (gs : List Goal) (j : Nat) (g1 : Goal),
    gs[j]? = some g1 → g1.satisfied = true →
    (checkGoalsAux active gs).1[j]? = some g1 := by
  intro gs
  induction gs with
  | nil => intro j g1 h; simp at h
  | cons g rest ih =>
    intro j g1 hj hsat
    rw [checkGoalsAux_cons]
    match j with
    | 0 =>
      simp at hj
      subst hj
      simp [hsat]
    | j + 1 =>
      simp only [List.getElem?_cons_succ] at hj ⊢
      exact ih j g1 hj hsat

/-- The goal scan sets satisfied to the disjunction of the previous flag and
the all-patterns-matched test, for every goal with required patterns. -/
theorem checkGoalsAux_get (active : List String) :
    ∀ (gs : List Goal) (i : Nat) (g : Goal),
    gs[i]? = some g → g.required_organs ≠ [] →
    (checkGoalsAux active gs).1[i]?
      = some { g with satisfied := g.satisfied || goalPatternsMatched active g } := by
  intro gs
  induction gs with
  | nil => intro i g h; simp at h
  | cons g0 rest ih =>
    intro i g hi hreq
    rw [checkGoalsAux_cons]
    match i with
    | 0 =>
      replace hi : g0 = g := by simpa using hi
      subst hi
      simp only [List.getElem?_cons_zero]
      rw [goal_update_eq active g0 hreq]
    | i + 1 =>
      simp only [List.getElem?_cons_succ] at hi ⊢
      exact ih i g hi hreq

/-- C4: for a goal with a non-empty required pattern list, the satisfaction
check marks it satisfied exactly when it already was or every pattern
matches at least one active module; and a goal once satisfied stays
satisfied across mark_inactive of any module followed by a re-run of the
check, so satisfaction never reverts automatically. -/
theorem c4_goal_satisfaction_monotonic (d : DNA) (i : Nat) (g : Goal)
    (hg : d.goals[i]? = some g) (hreq : g.required_organs ≠ []) :
    ((DNA.check_goal_satisfaction d).1.goals[i]?
        = some { g with satisfied := g.satisfied || goalPatternsMatched d.active_modules g }) ∧
    (∀ (m : String) (j : Nat) (g1 : Goal),
      (DNA.check_goal_satisfaction d).1.goals[j]? = some g1 → g1.satisfied = true →
      (DNA.check_goal_satisfaction
          (DNA.mark_inactive (DNA.check_goal_satisfaction d).1 m)).1.goals[j]?
        = some g1) := by
  constructor
  · exact checkGoalsAux_get d.active_modules d.goals i g hg hreq
  · intro m j g1 hj hsat
    exact checkGoalsAux_keeps_satisfied _ _ j g1 hj hsat

/-- Concrete goal for the C4 witness. -/
def c4Goal : Goal :=
  { description := "I must be able to perceive the file system."
    priority := 1
    satisfied := false
    created_at := "t0"
    required_organs := ["soma.perception.*"] }

/-- Concrete genome for the C4 witness: one unsatisfied goal and one active
module matching its pattern. -/
def c4DNA : DNA :=
  { system_version := "1.0.0"
    system_name := "SEAA"
    blueprint := []
    goals := [c4Goal]
    active_modules := ["soma.perception.fswatch"]
    failures := []
    metadata := { last_modified := "t0", total_evolutions := 0, total_failures := 0,
                  last_successful_organ := none } }

/-- Witness for C4: on the concrete genome the goal comes out satisfied, and
removing the matching module then re-running the check keeps it satisfied. -/
theorem c4_witness :
    ((DNA.check_goal_satisfaction c4DNA).1.goals[0]?
        = some { c4Goal with satisfied := true }) ∧
    ((DNA.check_goal_satisfaction
        (DNA.mark_inactive (DNA.check_goal_satisfaction c4DNA).1
          "soma.perception.fswatch")).1.goals[0]?
        = some { c4Goal with satisfied := true }) := by
  have h := c4_goal_satisfaction_monotonic c4DNA 0 c4Goal rfl (by decide)
  have hm : goalPatternsMatched c4DNA.active_modules c4Goal = true := by decide
  have h1 : (DNA.check_goal_satisfaction c4DNA).1.goals[0]?
      = some { c4Goal with satisfied := true } := by
    rw [h.1, hm]
    simp
  exact ⟨h1, h.2 "soma.perception.fswatch" 0 { c4Goal with satisfied := true } h1 rfl⟩

/-- Lookup after an in-place update of the first matching failure record,
for updates that keep the module name. -/
theorem lookup_updateFirst (name : String) (g : Failure → Failure)
    (hg : ∀ f, (g f).module_name = f.module_name) :
    ∀ fs, lookupFailure (updateFirstFailure name g fs) name
      = (lookupFailure fs name).map g := by
  intro fs
  induction fs with
  | nil => simp [lookupFailure, updateFirstFailure]
  | cons f rest ih =>
    by_cases hf : f.module_name == name
    · simp [lookupFailure, updateFirstFailure, hf, List.find?, hg]
    · simp only [updateFirstFailure, hf, Bool.false_eq_true, if_false]
      simp only [lookupFailure, List.find?] at ih ⊢
      simp only [hg, hf]
      exact ih

/-- C2: with a failure record at exactly max_attempts and a closed circuit,
should_attempt returns false and opens the circuit, so is_circuit_open then
reports true; once the cooldown has elapsed past the recorded opening time,
the next should_attempt call returns true and closes the circuit, so
is_circuit_open then reports false. -/
theorem c2_circuit_breaker (timeOf : String → Int) (t1 t2 : Int) (t1s t2s : String)
    (d : DNA) (name : String) (maxA cool : Int) (f : Failure)
    (hfind : lookupFailure d.failures name = some f)
    (hopen : f.circuit_open = false)
    (hcount : f.attempt_count = maxA)
    (hclock : timeOf t1s = t1)
    (helapsed : cool * 60 ≤ t2 - t1) :
    (DNA.should_attempt timeOf t1 t1s d name maxA cool).1 = false ∧
    DNA.is_circuit_open (DNA.should_attempt timeOf t1 t1s d name maxA cool).2 name = true ∧
    (DNA.should_attempt timeOf t2 t2s
        (DNA.should_attempt timeOf t1 t1s d name maxA cool).2 name maxA cool).1 = true ∧
    DNA.is_circuit_open
      (DNA.should_attempt timeOf t2 t2s
        (DNA.should_attempt timeOf t1 t1s d name maxA cool).2 name maxA cool).2 name = false := by
  have hle : maxA ≤ f.attempt_count := by omega
  have hr1 : DNA.should_attempt timeOf t1 t1s d name maxA cool
      = (false, DNA.open_circuit t1s d name) := by
    simp [DNA.should_attempt, hfind, hopen, hle]
  have hlook1 : lookupFailure (DNA.open_circuit t1s d name).failures name
      = some { f with circuit_open := true, circuit_opened_at := some t1s } := by
    show lookupFailure (updateFirstFailure name
        (fun f => { f with circuit_open := true, circuit_opened_at := some t1s })
        d.failures) name = _
    rw [lookup_updateFirst name
        (fun f => { f with circuit_open := true, circuit_opened_at := some t1s })
        (fun _ => rfl), hfind]
    rfl
  have hopen1 : DNA.is_circuit_open (DNA.open_circuit t1s d name) name = true := by
    simp [DNA.is_circuit_open, hlook1]
  have hnotlt : ¬ (t2 - timeOf t1s < cool * 60) := by
    rw [hclock]
    omega
  have hr2 : DNA.should_attempt timeOf t2 t2s (DNA.open_circuit t1s d name) name maxA cool
      = (true, { DNA.open_circuit t1s d name with
          failures := (updateFirstFailure name
            (fun g => { g with circuit_open := false, circuit_opened_at := none })
            (DNA.open_circuit t1s d name).failures) }) := by
    simp [DNA.should_attempt, hlook1, hnotlt]
  have hlook2 : lookupFailure
      (updateFirstFailure name
        (fun g => { g with circuit_open := false, circuit_opened_at := none })
        (DNA.open_circuit t1s d name).failures) name
      = some { f with circuit_open := false, circuit_opened_at := none } := by
    rw [lookup_updateFirst name
        (fun g => { g with circuit_open := false, circuit_opened_at := none })
        (fun _ => rfl), hlook1]
    rfl
  refine ⟨by rw [hr1], by rw [hr1]; exact hopen1, by rw [hr1]; rw [hr2], ?_⟩
  rw [hr1, hr2]
  simp [DNA.is_circuit_open, hlook2]

/-- Concrete failure record for the C2 witness. -/
def c2Failure : Failure :=
  { module_name := "soma.memory.journal"
    error_type := FailureType.runtime
    error_message := "boom"
    timestamp := "t0"
    attempt_count := 3
    context := []
    circuit_open := false
    circuit_opened_at := none }

/-- Concrete genome for the C2 witness. -/
def c2DNA : DNA :=
  { system_version := "1.0.0"
    system_name := "SEAA"
    blueprint := []
    goals := []
    active_modules := []
    failures := [c2Failure]
    metadata := { last_modified := "t0", total_evolutions := 0, total_failures := 1,
                  last_successful_organ := none } }

/-- Witness for C2 with max_attempts three, cooldown thirty minutes, the
circuit opened at second zero and reevaluated at second eighteen hundred. -/
theorem c2_witness :
    (DNA.should_attempt (fun _ => (0 : Int)) 0 "T0" c2DNA "soma.memory.journal" 3 30).1
        = false ∧
    DNA.is_circuit_open
      (DNA.should_attempt (fun _ => (0 : Int)) 0 "T0" c2DNA "soma.memory.journal" 3 30).2
      "soma.memory.journal" = true ∧
    (DNA.should_attempt (fun _ => (0 : Int)) 1800 "T1"
        (DNA.should_attempt (fun _ => (0 : Int)) 0 "T0" c2DNA "soma.memory.journal" 3 30).2
        "soma.memory.journal" 3 30).1 = true ∧
    DNA.is_circuit_open
      (DNA.should_attempt (fun _ => (0 : Int)) 1800 "T1"
        (DNA.should_attempt (fun _ => (0 : Int)) 0 "T0" c2DNA "soma.memory.journal" 3 30).2
        "soma.memory.journal" 3 30).2 "soma.memory.journal" = false :=
  c2_circuit_breaker (fun _ => (0 : Int)) 0 1800 "T0" "T1" c2DNA "soma.memory.journal" 3 30
    c2Failure rfl rfl rfl rfl (by decide)

/-- C5: with an open circuit whose cooldown has elapsed and an attempt count
still at or above max_attempts, the lazy transition permits exactly one
fresh attempt: the first should_attempt call returns true and closes the
circuit, and a second call with no intervening success or reset returns
false again, reopening the circuit. -/
theorem c5_cooldown_single_attempt (timeOf : String → Int) (t0 t1 t2 : Int)
    (s0 t1s t2s : String) (d : DNA) (name : String) (maxA cool : Int) (f : Failure)
    (hfind : lookupFailure d.failures name = some f)
    (hopen : f.circuit_open = true)
    (hat : f.circuit_opened_at = some s0)
    (hclock : timeOf s0 = t0)
    (helapsed : cool * 60 ≤ t1 - t0)
    (hcount : maxA ≤ f.attempt_count) :
    (DNA.should_attempt timeOf t1 t1s d name maxA cool).1 = true ∧
    (DNA.should_attempt timeOf t2 t2s
        (DNA.should_attempt timeOf t1 t1s d name maxA cool).2 name maxA cool).1 = false ∧
    DNA.is_circuit_open
      (DNA.should_attempt timeOf t2 t2s
        (DNA.should_attempt timeOf t1 t1s d name maxA cool).2 name maxA cool).2 name
      = true := by
  have hnotlt : ¬ (t1 - timeOf s0 < cool * 60) := by
    rw [hclock]
    omega
  have hr1 : DNA.should_attempt timeOf t1 t1s d name maxA cool
      = (true, { d with failures := (updateFirstFailure name
          (fun g => { g with circuit_open := false, circuit_opened_at := none })
          d.failures) }) := by
    simp [DNA.should_attempt, hfind, hopen, hat, hnotlt]
  have hlook1 : lookupFailure (updateFirstFailure name
      (fun g => { g with circuit_open := false, circuit_opened_at := none })
      d.failures) name
      = some { f with circuit_open := false, circuit_opened_at := none } := by
    rw [lookup_updateFirst name
        (fun g => { g with circuit_open := false, circuit_opened_at := none })
        (fun _ => rfl), hfind]
    rfl
  have hr2 : DNA.should_attempt timeOf t2 t2s
      ({ d with failures := (updateFirstFailure name
          (fun g => { g with circuit_open := false, circuit_opened_at := none })
          d.failures) }) name maxA cool
      = (false, DNA.open_circuit t2s { d with failures := (updateFirstFailure name
          (fun g => { g with circuit_open := false, circuit_opened_at := none })
          d.failures) } name) := by
    simp [DNA.should_attempt, hlook1, hcount]
  have hlook2 : lookupFailure (DNA.open_circuit t2s { d with
      failures := (updateFirstFailure name
        (fun g => { g with circuit_open := false, circuit_opened_at := none })
        d.failures) } name).failures name
      = some { f with circuit_open := true, circuit_opened_at := some t2s } := by
    show lookupFailure (updateFirstFailure name
        (fun f => { f with circuit_open := true, circuit_opened_at := some t2s })
        (updateFirstFailure name
          (fun g => { g with circuit_open := false, circuit_opened_at := none })
          d.failures)) name = _
    rw [lookup_updateFirst name
        (fun f => { f with circuit_open := true, circuit_opened_at := some t2s })
        (fun _ => rfl), hlook1]
    rfl
  refine ⟨by rw [hr1], by rw [hr1]; rw [hr2], ?_⟩
  rw [hr1, hr2]
  simp [DNA.is_circuit_open, hlook2]

/-- Concrete failure record for the C5 witness: circuit open since second
zero, three attempts recorded. -/
def c5Failure : Failure :=
  { module_name := "soma.interface.dashboard"
    error_type := FailureType.runtime
    error_message := "boom"
    timestamp := "t0"
    attempt_count := 3
    context := []
    circuit_open := true
    circuit_opened_at := some "T0" }

/-- Concrete genome for the C5 witness. -/
def c5DNA : DNA :=
  { system_version := "1.0.0"
    system_name := "SEAA"
    blueprint := []
    goals := []
    active_modules := []
    failures := [c5Failure]
    metadata := { last_modified := "t0", total_evolutions := 0, total_failures := 1,
                  last_successful_organ := none } }

/-- Witness for C5 at cooldown thirty minutes elapsed exactly. -/
theorem c5_witness :
    (DNA.should_attempt (fun _ => (0 : Int)) 1800 "T1" c5DNA "soma.interface.dashboard" 3 30).1
        = true ∧
    (DNA.should_attempt (fun _ => (0 : Int)) 1801 "T2"
        (DNA.should_attempt (fun _ => (0 : Int)) 1800 "T1" c5DNA
          "soma.interface.dashboard" 3 30).2
        "soma.interface.dashboard" 3 30).1 = false ∧
    DNA.is_circuit_open
      (DNA.should_attempt (fun _ => (0 : Int)) 1801 "T2"
        (DNA.should_attempt (fun _ => (0 : Int)) 1800 "T1" c5DNA
          "soma.interface.dashboard" 3 30).2
        "soma.interface.dashboard" 3 30).2 "soma.interface.dashboard" = true :=
  c5_cooldown_single_attempt (fun _ => (0 : Int)) 0 1800 1801 "T0" "T1" "T2" c5DNA
    "soma.interface.dashboard" 3 30 c5Failure rfl rfl rfl rfl (by decide) (by decide)

/-- C10: integrity verification on load fails open in two edge cases: when
the companion digest file does not exist, and when reading it raises, load
proceeds to parse the genome file and return its content; load rejects with
DNACorruptedError before parsing only on an actual digest mismatch. -/
theorem c10_verify_fail_open (H : RawContent → String) (now : String) (st : RepoState)
    (content : RawContent) (hfile : st.dnaFile = some content) :
    (st.hashFile = none → RepoState.load true H now st = parseLoaded now content) ∧
    (∀ e : Unit, st.hashFile = some (Except.error e) →
      RepoState.load true H now st = parseLoaded now content) ∧
    (∀ stored : String, st.hashFile = some (Except.ok stored) → pyStrip stored ≠ H content →
      RepoState.load true H now st = Except.error DNAError.corrupted) := by
  refine ⟨?_, ?_, ?_⟩
  · intro h
    simp [RepoState.load, hfile, verifyHash, h]
  · intro e h
    simp [RepoState.load, hfile, verifyHash, h]
  · intro stored h hne
    simp [RepoState.load, hfile, verifyHash, h, hne]

/-- Witness for C10: a missing digest file and an unreadable digest file let
a well-formed genome file load, an actual mismatch is rejected. -/
theorem c10_witness :
    (RepoState.load true (fun _ => "h") "now"
        { dnaFile := some (RawContent.valid (Json.obj [])), hashFile := none }
      = parseLoaded "now" (RawContent.valid (Json.obj []))) ∧
    (RepoState.load true (fun _ => "h") "now"
        { dnaFile := some (RawContent.valid (Json.obj [])),
          hashFile := some (Except.error ()) }
      = parseLoaded "now" (RawContent.valid (Json.obj []))) ∧
    (RepoState.load true (fun _ => "h") "now"
        { dnaFile := some (RawContent.valid (Json.obj [])),
          hashFile := some (Except.ok "bad") }
      = Except.error DNAError.corrupted) :=
  ⟨(c10_verify_fail_open (fun _ => "h") "now" _ _ rfl).1 rfl,
   (c10_verify_fail_open (fun _ => "h") "now" _ _ rfl).2.1 () rfl,
   (c10_verify_fail_open (fun _ => "h") "now" _ _ rfl).2.2 "bad" rfl (by decide)⟩

/-- Rewriting each catalog entry name to its key is the identity exactly on
well-formed catalogs. -/
theorem blueprintMapKeys_eq (bps : List (String × OrganBlueprint))
    (hwf : ∀ p ∈ bps, p.2.name = p.1) :
    bps.map (fun p => (p.1, { p.2 with name := p.1 })) = bps := by
  induction bps with
  | nil => rfl
  | cons p rest ih =>
    have h1 : p.2.name = p.1 := hwf p (List.mem_cons_self p rest)
    have h2 : ∀ q ∈ rest, q.2.name = q.1 := fun q hq => hwf q (List.mem_cons_of_mem p hq)
    simp only [List.map_cons, ih h2]
    congr 1
    cases p with
    | mk k bpv =>
      simp only [Prod.mk.injEq, true_and]
      cases bpv
      simp only [OrganBlueprint.mk.injEq, and_true, true_and]
      simp at h1
      simp [h1]

/-- C1 amended: for a genome whose blueprint catalog keys equal the stored
blueprint name fields, which holds for every genome the code itself
constructs, save followed by load returns exactly the saved genome, whose
last_modified save stamped; and with integrity verification on and the
digest file present, replacing the persisted content by anything whose
digest differs, which a single bit flip does barring a SHA-256 collision,
makes load fail with DNACorruptedError instead of returning altered state.
The htrim hypothesis records that digests carry no surrounding whitespace,
as hex digests do; pyStrip models the strip applied to the stored digest
text. -/
theorem c1_save_load_roundtrip_tamper (H : RawContent → String)
    (st : RepoState) (d : DNA) (nowS nowL : String)
    (hwf : ∀ p ∈ d.blueprint, p.2.name = p.1)
    (htrim : ∀ c, pyStrip (H c) = H c) :
    (RepoState.load true H nowL (RepoState.save true H nowS st d)
       = Except.ok (DNA.stamp d nowS)) ∧
    (∀ c2 : RawContent,
       H c2 ≠ H (RawContent.valid (DNA.toDict (DNA.stamp d nowS))) →
       RepoState.load true H nowL
         { dnaFile := some c2,
           hashFile := (RepoState.save true H nowS st d).hashFile }
         = Except.error DNAError.corrupted) := by
  have hcanon : DNA.canonBlueprint (DNA.stamp d nowS) = DNA.stamp d nowS := by
    cases d with
    | mk sv sn bp gls am fls md =>
      simp only [DNA.stamp, DNA.canonBlueprint]
      rw [blueprintMapKeys_eq bp hwf]
  constructor
  · have hload : RepoState.load true H nowL (RepoState.save true H nowS st d)
        = parseLoaded nowL (RawContent.valid (DNA.toDict (DNA.stamp d nowS))) := by
      simp only [RepoState.save, RepoState.load, verifyHash, if_true]
      rw [htrim]
      simp
    rw [hload]
    simp [parseLoaded, dnaRoundtrip, hcanon]
  · intro c2 hne
    have hfalse : (H (RawContent.valid (DNA.toDict (DNA.stamp d nowS))) == H c2) = false := by
      simp only [beq_eq_false_iff_ne, ne_eq]
      exact fun hh => hne hh.symm
    simp only [RepoState.save, RepoState.load, verifyHash, if_true]
    rw [htrim]
    simp [hfalse]

/-- Blueprint record whose stored name disagrees with its catalog key. -/
def c1BadBlueprint : OrganBlueprint :=
  { name := "soma.other.name"
    description := "d"
    dependencies := []
    version := 1
    created_at := "t"
    updated_at := "t" }

/-- Genome refuting the unconditional round-trip: the catalog key and the
blueprint name field disagree. -/
def c1BadDNA : DNA :=
  { system_version := "1.0.0"
    system_name := "SEAA"
    blueprint := [("soma.memory.journal", c1BadBlueprint)]
    goals := []
    active_modules := []
    failures := []
    metadata := { last_modified := "t", total_evolutions := 0, total_failures := 0,
                  last_successful_organ := none } }

/-- Counterexample to C1 as stated: for this genome, save followed by load
does not return a structurally equal genome, because loading rewrites the
blueprint name field to the catalog key. -/
theorem c1_counterexample :
    RepoState.load true (fun _ => "h") "now"
        (RepoState.save true (fun _ => "h") "s" { dnaFile := none, hashFile := none } c1BadDNA)
      ≠ Except.ok (DNA.stamp c1BadDNA "s") := by decide

/-- Well-formed genome for the C1 witness, exercising every field kind. -/
def c1GoodDNA : DNA :=
  { system_version := "1.0.0"
    system_name := "SEAA"
    blueprint := [("soma.memory.journal", { c1BadBlueprint with name := "soma.memory.journal" })]
    goals := [{ description := "I must have a memory."
                priority := 1
                satisfied := true
                created_at := "t0"
                required_organs := ["soma.memory.*"] }]
    active_modules := ["soma.memory.journal"]
    failures := [{ module_name := "soma.interface.web"
                   error_type := FailureType.generation
                   error_message := "boom"
                   timestamp := "t0"
                   attempt_count := 2
                   context := [("attempt", Json.num 2)]
                   circuit_open := false
                   circuit_opened_at := none }]
    metadata := { last_modified := "t", total_evolutions := 1, total_failures := 1,
                  last_successful_organ := some "soma.memory.journal" } }

/-- Digest model for the C1 witness: it separates non-JSON blobs from JSON
content, as SHA-256 separates any two distinct byte strings in practice. -/
def c1Digest : RawContent → String
  | RawContent.valid _ => "v"
  | RawContent.invalid _ => "i"

/-- Witness for C1: the concrete well-formed genome round-trips, and
replacing the persisted file by a non-JSON blob with a different digest is
rejected as corrupted. -/
theorem c1_witness :
    (RepoState.load true c1Digest "now"
        (RepoState.save true c1Digest "s" { dnaFile := none, hashFile := none } c1GoodDNA)
      = Except.ok (DNA.stamp c1GoodDNA "s")) ∧
    (RepoState.load true c1Digest "now"
        { dnaFile := some (RawContent.invalid 0),
          hashFile := (RepoState.save true c1Digest "s"
            { dnaFile := none, hashFile := none } c1GoodDNA).hashFile }
      = Except.error DNAError.corrupted) := by
  have h := c1_save_load_roundtrip_tamper c1Digest
    { dnaFile := none, hashFile := none } c1GoodDNA "s" "now"
    (by decide) (fun c => by cases c <;> rfl)
  exact ⟨h.1, h.2 (RawContent.invalid 0) (by decide)⟩

/-- Escaping quotes introduces no null characters when the input has none. -/
theorem escape_no_null (l : List Char) (h : '\x00' ∉ l) :
    '\x00' ∉ l.flatMap (fun ch => if ch == '"' then ['\\', '"'] else [ch]) := by
  induction l with
  | nil => simp
  | cons a rest ih =>
    simp only [List.flatMap_cons, List.mem_append]
    intro hmem
    rcases hmem with h1 | h2
    · by_cases ha : a == '"'
      · rw [if_pos ha] at h1
        simp at h1
      · rw [if_neg ha] at h1
        simp at h1
        exact h (h1 ▸ List.mem_cons_self a rest)
    · exact ih (fun hm => h (List.mem_cons_of_mem a hm)) h2

/-- Escaping quotes at most doubles the length. -/
theorem escape_length (l : List Char) :
    (l.flatMap (fun ch => if ch == '"' then ['\\', '"'] else [ch])).length ≤ 2 * l.length := by
  induction l with
  | nil => simp
  | cons a rest ih =>
    rw [List.flatMap_cons, List.length_append]
    have hch : (if a == '"' then ['\\', '"'] else [a]).length ≤ 2 := by
      by_cases ha : a == '"' <;> simp [ha]
    simp only [List.length_cons]
    omega

/-- C3 amended: author identity inputs, the git config user name and email,
are validated against the strict allow-list pattern with a 200 character
bound, and any value with a leading dash, an embedded newline or carriage
return, or a null byte is rejected with an error rather than used; commit
messages, by contrast, are never rejected: commit, when genealogy is
enabled and changes exist, always runs with the sanitized message, which is
the input truncated to 500 characters with null bytes removed and double
quotes escaped, hence free of null bytes and at most 1000 characters, but
which may still begin with a dash or contain newlines. -/
theorem c3_validation_amended (v fld m : String) :
    (strStarts "-" v = true → ∃ msg, validateConfigValue v fld = Except.error msg) ∧
    (strHasChar v '\n' = true ∨ strHasChar v '\r' = true →
      ∃ msg, validateConfigValue v fld = Except.error msg) ∧
    (strHasChar v '\x00' = true → ∃ msg, validateConfigValue v fld = Except.error msg) ∧
    (200 < v.length → ∃ msg, validateConfigValue v fld = Except.error msg) ∧
    (∀ w, validateConfigValue v fld = Except.ok w →
      w = v ∧ v ≠ "" ∧ v.length ≤ 200 ∧ strStarts "-" v = false ∧
      strHasChar v '\n' = false ∧ strHasChar v '\r' = false ∧
      strHasChar v '\x00' = false ∧ v.data.all safeConfigChar = true) ∧
    (genealogyCommit true true m = (true, some (validateCommitMessage m))) ∧
    ('\x00' ∉ (validateCommitMessage m).data) ∧
    ((validateCommitMessage m).length ≤ 1000) := by
  have hok : ∀ w, validateConfigValue v fld = Except.ok w →
      w = v ∧ v ≠ "" ∧ v.length ≤ 200 ∧ strStarts "-" v = false ∧
      strHasChar v '\n' = false ∧ strHasChar v '\r' = false ∧
      strHasChar v '\x00' = false ∧ v.data.all safeConfigChar = true := by
    intro w h
    unfold validateConfigValue at h
    by_cases h1 : (v == "") = true
    · rw [if_pos h1] at h
      exact absurd h (by simp)
    rw [if_neg h1] at h
    by_cases h2 : 200 < v.length
    · rw [if_pos h2] at h
      exact absurd h (by simp)
    rw [if_neg h2] at h
    by_cases h3 : (strStarts "-" v) = true
    · rw [if_pos h3] at h
      exact absurd h (by simp)
    rw [if_neg h3] at h
    by_cases h4 : (strHasChar v '\n' || strHasChar v '\r') = true
    · rw [if_pos h4] at h
      exact absurd h (by simp)
    rw [if_neg h4] at h
    by_cases h5 : (strHasChar v '\x00') = true
    · rw [if_pos h5] at h
      exact absurd h (by simp)
    rw [if_neg h5] at h
    by_cases h6 : ¬ (v.data.all safeConfigChar = true)
    · rw [if_pos h6] at h
      exact absurd h (by simp)
    rw [if_neg h6] at h
    have hw : w = v := (Except.ok.inj h).symm
    have hb4 := h4
    simp only [Bool.or_eq_true, not_or] at hb4
    refine ⟨hw, by simpa using h1, by omega, by simpa using h3,
      by simpa using hb4.1, by simpa using hb4.2, by simpa using h5,
      Decidable.not_not.mp h6⟩
  have herrOf : ∀ (hbad : ¬ (strStarts "-" v = false ∧ strHasChar v '\n' = false ∧
      strHasChar v '\r' = false ∧ strHasChar v '\x00' = false ∧ v.length ≤ 200)),
      ∃ msg, validateConfigValue v fld = Except.error msg := by
    intro hbad
    cases hres : validateConfigValue v fld with
    | error msg => exact ⟨msg, rfl⟩
    | ok w =>
      have hc := hok w hres
      exact absurd ⟨hc.2.2.2.1, hc.2.2.2.2.1, hc.2.2.2.2.2.1, hc.2.2.2.2.2.2.1,
        hc.2.2.1⟩ hbad
  refine ⟨?_, ?_, ?_, ?_, hok, ?_, ?_, ?_⟩
  · intro hdash
    exact herrOf (fun hc => by rw [hc.1] at hdash; exact absurd hdash (by simp))
  · intro hnl
    refine herrOf (fun hc => ?_)
    rcases hnl with hnl | hnl
    · rw [hc.2.1] at hnl
      exact absurd hnl (by simp)
    · rw [hc.2.2.1] at hnl
      exact absurd hnl (by simp)
  · intro hnul
    exact herrOf (fun hc => by rw [hc.2.2.2.1] at hnul; exact absurd hnul (by simp))
  · intro hlen
    exact herrOf (fun hc => by omega)
  · rfl
  · by_cases hm : (m == "") = true
    · simp only [validateCommitMessage, hm, if_pos]
      decide
    · simp only [validateCommitMessage, hm, Bool.false_eq_true, if_false]
      have hrm : '\x00' ∉ (removeNulls (takeChars m 500)).data := by
        simp [removeNulls, List.mem_filter]
      exact escape_no_null _ hrm
  · by_cases hm : (m == "") = true
    · simp only [validateCommitMessage, hm, if_pos]
      decide
    · simp only [validateCommitMessage, hm, Bool.false_eq_true, if_false]
      have l1 : (takeChars m 500).data.length ≤ 500 := by
        simp [takeChars]
      have l2 : (removeNulls (takeChars m 500)).data.length
          ≤ (takeChars m 500).data.length := by
        simp only [removeNulls]
        exact List.length_filter_le _ _
      have l3 := escape_length (removeNulls (takeChars m 500)).data
      show (escapeQuotes (removeNulls (takeChars m 500))).length ≤ 1000
      simp only [escapeQuotes, String.length]
      omega

/-- Counterexample to C3 as stated: a commit message with a leading dash and
an embedded newline is not rejected; the commit runs with it unchanged,
because the message path sanitizes instead of validating. -/
theorem c3_counterexample :
    genealogyCommit true true "-evil\ninjected" = (true, some "-evil\ninjected") := by
  decide

/-- Witness for C3: concrete author identity values with a leading dash,
an embedded newline and a null byte are each rejected, and a concrete
commit message is passed through sanitization and used. -/
theorem c3_witness :
    (∃ msg, validateConfigValue "-upstream" "genealogy.user_name" = Except.error msg) ∧
    (∃ msg, validateConfigValue "a\nb" "genealogy.user_name" = Except.error msg) ∧
    (∃ msg, validateConfigValue "a\x00b" "genealogy.user_email" = Except.error msg) ∧
    (genealogyCommit true true "Evolved: soma.memory.journal"
      = (true, some (validateCommitMessage "Evolved: soma.memory.journal"))) :=
  ⟨(c3_validation_amended "-upstream" "genealogy.user_name" "x").1 (by decide),
   (c3_validation_amended "a\nb" "genealogy.user_name" "x").2.1 (Or.inl (by decide)),
   (c3_validation_amended "a\x00b" "genealogy.user_email" "x").2.2.1 (by decide),
   (c3_validation_amended "x" "y" "Evolved: soma.memory.journal").2.2.2.2.2.1⟩

/-- C9: materialize rejects, writing nothing, every name that starts with a
protected kernel namespace prefix and every name whose resolved file path
falls outside the deployment root; and a successful materialization implies
the name passed both checks, the written location is the one derived from
the name, and exactly the organ file was added. -/
theorem c9_materialize_guards (resolveFn : List String → List String)
    (root : List String) (fs : FS) (name code : String) :
    ((protectedNamespaces.any (fun p => strStarts p name)) = true →
      ∃ e, Materializer.materialize resolveFn root protectedNamespaces fs name code
        = (Except.error e, fs)) ∧
    ((List.isPrefixOf (resolveFn root) (resolveFn (modulePathRaw root name))) = false →
      ∃ e, Materializer.materialize resolveFn root protectedNamespaces fs name code
        = (Except.error e, fs)) ∧
    (∀ path fs2,
      Materializer.materialize resolveFn root protectedNamespaces fs name code
        = (Except.ok path, fs2) →
      (protectedNamespaces.any (fun p => strStarts p name)) = false ∧
      (List.isPrefixOf (resolveFn root) (resolveFn path)) = true ∧
      path = modulePathRaw root name ∧ fs2 = fs ++ [(path, code)]) := by
  refine ⟨?_, ?_, ?_⟩
  · intro hprot
    cases hv : validateModuleName name with
    | error e => exact ⟨e, by simp [Materializer.materialize, hv]⟩
    | ok u => exact ⟨MatError.kernelProtection, by simp [Materializer.materialize, hv, hprot]⟩
  · intro hesc
    cases hv : validateModuleName name with
    | error e => exact ⟨e, by simp [Materializer.materialize, hv]⟩
    | ok u =>
      by_cases hprot : (protectedNamespaces.any (fun p => strStarts p name)) = true
      · exact ⟨MatError.kernelProtection, by simp [Materializer.materialize, hv, hprot]⟩
      · by_cases hsoma : (strStarts "soma." name) = true
        · exact ⟨MatError.pathTraversal,
            by simp [Materializer.materialize, moduleToPath, hv, hprot, hsoma, hesc]⟩
        · exact ⟨MatError.missingSomaDot,
            by simp [Materializer.materialize, hv, hprot, hsoma]⟩
  · intro path fs2 h
    cases hv : validateModuleName name with
    | error e => simp [Materializer.materialize, hv] at h
    | ok u =>
      by_cases hprot : (protectedNamespaces.any (fun p => strStarts p name)) = true
      · simp [Materializer.materialize, hv, hprot] at h
      · by_cases hsoma : (strStarts "soma." name) = true
        · by_cases hpre : (List.isPrefixOf (resolveFn root)
              (resolveFn (modulePathRaw root name))) = true
          · simp [Materializer.materialize, moduleToPath, hv, hprot, hsoma, hpre] at h
            obtain ⟨hpath, hfs⟩ := h
            refine ⟨by simpa using hprot, ?_, hpath.symm, ?_⟩
            · rw [hpath] at hpre
              exact hpre
            · rw [← hfs, hpath]
          · simp [Materializer.materialize, moduleToPath, hv, hprot, hsoma, hpre] at h
        · simp [Materializer.materialize, hv, hprot, hsoma] at h

/-- Witness for C9: a protected kernel name is rejected with the filesystem
untouched, a name resolving outside the root is rejected likewise, and a
valid organ name materializes to exactly its derived location. -/
theorem c9_witness :
    (∃ e, Materializer.materialize (fun p => p) ["root"] protectedNamespaces []
        "seaa.kernel.bus" "c" = (Except.error e, [])) ∧
    (∃ e, Materializer.materialize (fun p => if p.length ≤ 1 then ["a"] else ["b"]) ["root"]
        protectedNamespaces [] "soma.memory.journal" "c" = (Except.error e, [])) ∧
    ((protectedNamespaces.any (fun p => strStarts p "soma.memory.journal")) = false ∧
     (List.isPrefixOf ["root"] ["root", "soma", "memory", "journal.py"]) = true ∧
     ["root", "soma", "memory", "journal.py"] = modulePathRaw ["root"] "soma.memory.journal" ∧
     [(["root", "soma", "memory", "journal.py"], "c")]
       = [] ++ [(["root", "soma", "memory", "journal.py"], "c")]) :=
  ⟨(c9_materialize_guards (fun p => p) ["root"] [] "seaa.kernel.bus" "c").1 (by decide),
   (c9_materialize_guards (fun p => if p.length ≤ 1 then ["a"] else ["b"]) ["root"] []
      "soma.memory.journal" "c").2.1 (by decide),
   (c9_materialize_guards (fun p => p) ["root"] [] "soma.memory.journal" "c").2.2
      ["root", "soma", "memory", "journal.py"]
      [(["root", "soma", "memory", "journal.py"], "c")] (by decide)⟩

/-- A validator that rejects every cleaned response drives the retry loop to
exhaustion: no fuel, attempt index or prompt yields a result. -/
theorem genLoop_reject_none (gen : Nat → String → Option String)
    (cleanCode : String → String) (validateCode : String → Option String)
    (feedbackOf : String → String) (basePrompt : String)
    (hreject : ∀ r : String, (validateCode (cleanCode r)).isSome = true) :
    ∀ (k a : Nat) (cur : String),
      genLoop gen cleanCode validateCode feedbackOf basePrompt k a cur = none := by
  intro k
  induction k with
  | zero => intro a cur; rfl
  | succ k ih =>
    intro a cur
    simp only [genLoop]
    cases hg : gen a cur with
    | none => exact ih (a + 1) cur
    | some r =>
      have hgoal : (match validateCode (cleanCode r) with
          | none => some (cleanCode r)
          | some err => genLoop gen cleanCode validateCode feedbackOf basePrompt k (a + 1)
              (basePrompt ++ feedbackOf err)) = none := by
        cases hv : validateCode (cleanCode r) with
        | none =>
          have := hreject r
          rw [hv] at this
          simp at this
        | some err => exact ih (a + 1) _
      exact hgoal

/-- Search in an appended list skips a first part with no match. -/
theorem find_append_of_none {α : Type} (p : α → Bool) :
    ∀ (l1 l2 : List α), l1.find? p = none → (l1 ++ l2).find? p = l2.find? p := by
  intro l1 l2 h
  induction l1 with
  | nil => simp
  | cons f fs ih =>
    cases hf : p f with
    | true =>
      rw [List.find?_cons_of_pos _ hf] at h
      simp at h
    | false =>
      rw [List.find?_cons_of_neg _ (by simp [hf])] at h
      rw [List.cons_append, List.find?_cons_of_neg _ (by simp [hf])]
      exact ih h

/-- Recording a failure leaves a ledger entry of the recorded kind for the
module, whether the record is fresh or updated in place. -/
theorem addFailure_lookup (nowStr : String) (d : DNA) (name : String)
    (etype : FailureType) (msg : String) (ctx : List (String × Json)) :
    ∃ f, lookupFailure (DNA.add_failure nowStr d name etype msg ctx).failures name = some f ∧
      f.error_type = etype := by
  unfold DNA.add_failure
  cases hl : lookupFailure d.failures name with
  | some f0 =>
    refine ⟨{ f0 with
        attempt_count := f0.attempt_count + 1
        error_type := etype
        error_message := msg
        timestamp := nowStr
        context := if ctx.isEmpty then f0.context else dictUpdate f0.context ctx }, ?_, rfl⟩
    simp only
    rw [lookup_updateFirst name
        (fun f => { f with
          attempt_count := f.attempt_count + 1
          error_type := etype
          error_message := msg
          timestamp := nowStr
          context := if ctx.isEmpty then f.context else dictUpdate f.context ctx })
        (fun _ => rfl), hl]
    rfl
  | none =>
    refine ⟨Failure.mk name etype msg nowStr 1 ctx false none, ?_, rfl⟩
    simp only [lookupFailure] at hl ⊢
    have happ : (d.failures ++ [Failure.mk name etype msg nowStr 1 ctx false none]).find?
          (fun f => f.module_name == name)
        = some (Failure.mk name etype msg nowStr 1 ctx false none) := by
      rw [find_append_of_none _ _ _ hl]
      simp [List.find?]
    exact happ

/-- C7: the generation retry bound defaults to three; when the validator
rejects everything, the pipeline returns none for every retry bound, never
deploying; each rejection feeds the diagnostic back by setting the next
prompt to the base prompt plus the rendered feedback; and when the gateway
yields nothing while the circuit allows the attempt and the organ cap is
not reached, the orchestrator records a failure of the generation kind in
the ledger, materializes nothing and reports no success. -/
theorem c7_generation_retry_and_failure_kind
    (gen : Nat → String → Option String) (cleanCode : String → String)
    (validateCode : String → Option String) (feedbackOf : String → String)
    (prompt cur resp err : String) (k attempt : Nat)
    (timeOf : String → Int) (now : Int) (nowStr : String)
    (maxA cool : Int) (maxTotal : Nat)
    (resolveFn : List String → List String) (root : List String) (fs : FS)
    (d : DNA) (organ : String)
    (hreject : ∀ r : String, (validateCode (cleanCode r)).isSome = true)
    (hresp : gen attempt cur = some resp)
    (herr : validateCode (cleanCode resp) = some err)
    (hgate : (DNA.should_attempt timeOf now nowStr d organ maxA cool).1 = true)
    (hcap : (DNA.should_attempt timeOf now nowStr d organ maxA cool).2.active_modules.length
        < maxTotal) :
    llmMaxRetriesDefault = 3 ∧
    (∀ n : Nat, generateWithValidation gen cleanCode validateCode feedbackOf prompt n = none) ∧
    (genLoop gen cleanCode validateCode feedbackOf prompt (k + 1) attempt cur
        = genLoop gen cleanCode validateCode feedbackOf prompt k (attempt + 1)
            (prompt ++ feedbackOf err)) ∧
    ((evolveOrgan timeOf now nowStr maxA cool maxTotal none resolveFn root
        protectedNamespaces fs d organ).success = false ∧
     (evolveOrgan timeOf now nowStr maxA cool maxTotal none resolveFn root
        protectedNamespaces fs d organ).materializedPath = none ∧
     (evolveOrgan timeOf now nowStr maxA cool maxTotal none resolveFn root
        protectedNamespaces fs d organ).fs = fs ∧
     ∃ f, lookupFailure (evolveOrgan timeOf now nowStr maxA cool maxTotal none resolveFn root
        protectedNamespaces fs d organ).dna.failures organ = some f ∧
       f.error_type = FailureType.generation) := by
  have hevolve : evolveOrgan timeOf now nowStr maxA cool maxTotal none resolveFn root
      protectedNamespaces fs d organ
      = { success := false
          dna := DNA.add_failure nowStr
            (DNA.should_attempt timeOf now nowStr d organ maxA cool).2 organ
            FailureType.generation "LLM failed to generate code" []
          materializedPath := none
          fs := fs } := by
    simp [evolveOrgan, hgate, Nat.not_le.mpr hcap]
  refine ⟨rfl, ?_, ?_, ?_⟩
  · intro n
    exact genLoop_reject_none gen cleanCode validateCode feedbackOf prompt hreject n 0 prompt
  · simp only [genLoop, hresp, herr]
  · rw [hevolve]
    exact ⟨rfl, rfl, rfl,
      addFailure_lookup nowStr (DNA.should_attempt timeOf now nowStr d organ maxA cool).2
        organ FailureType.generation "LLM failed to generate code" []⟩

/-- Fresh genome for the C7 witness. -/
def c7DNA : DNA :=
  { system_version := "1.0.0"
    system_name := "SEAA"
    blueprint := []
    goals := []
    active_modules := []
    failures := []
    metadata := { last_modified := "t", total_evolutions := 0, total_failures := 0,
                  last_successful_organ := none } }

/-- Witness for C7: with an always-rejecting validator the pipeline returns
none at the default bound of three retries, and a missing generation leaves
a generation-kind ledger entry with nothing materialized. -/
theorem c7_witness :
    (generateWithValidation (fun _ _ => some "resp") (fun s => s) (fun _ => some "bad")
        (fun e => e) "p" 3 = none) ∧
    ((evolveOrgan (fun _ => (0 : Int)) 0 "T" 3 30 5 none (fun p => p) ["root"]
        protectedNamespaces [] c7DNA "soma.memory.journal").success = false) ∧
    (∃ f, lookupFailure (evolveOrgan (fun _ => (0 : Int)) 0 "T" 3 30 5 none (fun p => p)
        ["root"] protectedNamespaces [] c7DNA "soma.memory.journal").dna.failures
        "soma.memory.journal" = some f ∧ f.error_type = FailureType.generation) := by
  have h := c7_generation_retry_and_failure_kind (fun _ _ => some "resp") (fun s => s)
    (fun _ => some "bad") (fun e => e) "p" "p" "resp" "bad" 1 0
    (fun _ => (0 : Int)) 0 "T" 3 30 5 (fun p => p) ["root"] [] c7DNA "soma.memory.journal"
    (fun r => rfl) rfl rfl (by decide) (by decide)
  exact ⟨h.2.1 3, h.2.2.2.1, h.2.2.2.2.2.2⟩

end SEAA
